import Mathlib

set_option maxHeartbeats 1000000

/-! Shallow embedding of the roaming client agent of the Cell-Mesh-Simulator
repository (`src/client_roaming_led.py`): the data model, the wireless-output
parsing, the observation reconciliation, the roam decision engine, the LED
indicator step and the tower-registry loader, together with theorems settling
the specification's claims about them.  Python floats are modelled as
rationals, Python `dict`s as insertion-ordered association lists, and the
external `iw` / LED collaborators as explicit inputs plus an event trace of
the calls the code issues (log lines and sleeps are not traced). -/

/-- Unicode whitespace, the character set matched by Python's regex `\s` (for
`str` patterns) and stripped by `str.strip()`. -/
def isPySpace (c : Char) : Bool :=
  c = ' ' || c = '\t' || c = '\n' || c = '\r' || c = '\x0b' || c = '\x0c' ||
  c = '\x1c' || c = '\x1d' || c = '\x1e' || c = '\x1f' || c = '\x85' || c = '\xa0' ||
  c = '\u1680' || ('\u2000' ≤ c && c ≤ '\u200a') || c = '\u2028' || c = '\u2029' ||
  c = '\u202f' || c = '\u205f' || c = '\u3000'

/-- Python `str.strip()`. -/
def pyStrip (s : String) : String :=
  String.mk (((s.data.dropWhile isPySpace).reverse.dropWhile isPySpace).reverse)

/-- Python `str.lower()` (ASCII letters; the characters the code lowercases
that survive its hex/colon validations are all ASCII). -/
def lowerStr (s : String) : String := String.mk (s.data.map Char.toLower)

/-- Python `dict.get`: the value stored for a key, if any. -/
def pyGet (m : List (String × α)) (k : String) : Option α :=
  (m.find? (fun p => decide (p.1 = k))).map (fun p => p.2)

/-- Python `d[k] = v`: overwrite the entry in place if the key is present,
append it otherwise. -/
def pyDictSet (m : List (String × α)) (k : String) (v : α) : List (String × α) :=
  if (m.find? (fun p => decide (p.1 = k))).isSome then
    m.map (fun p => if p.1 = k then (k, v) else p)
  else m ++ [(k, v)]

/-- Value of a decimal digit. -/
def digitVal (c : Char) : ℕ := c.toNat - '0'.toNat

/-- Natural number denoted by a string of decimal digits (Python `int(...)`
on a `[0-9]+` regex group). -/
def digitsToNat (cs : List Char) : ℕ := cs.foldl (fun a c => 10 * a + digitVal c) 0

/-- Python `float(...)` applied to a string drawn from the regex class
`[-0-9.]+`: an optional leading minus sign, then digits with at most one
decimal point and at least one digit.  Returns `none` where Python raises
`ValueError` (e.g. `"-"`, `"."`, `"1.2.3"`, `"1-2"`). -/
def parseUnsignedQ (cs : List Char) : Option ℚ :=
  let intPart := cs.takeWhile Char.isDigit
  let rest := cs.dropWhile Char.isDigit
  match rest with
  | [] => if intPart.isEmpty then none else some (digitsToNat intPart : ℚ)
  | '.' :: frac =>
      if frac.all Char.isDigit && !(intPart.isEmpty && frac.isEmpty) then
        some ((digitsToNat intPart : ℚ) + (digitsToNat frac : ℚ) / (10 ^ frac.length : ℚ))
      else none
  | _ => none

/-- Python `float(...)`, see `parseUnsignedQ`. -/
def parseFloat (s : String) : Option ℚ :=
  match s.data with
  | '-' :: rest => (parseUnsignedQ rest).map (fun q => -q)
  | cs => parseUnsignedQ cs

/-- Match a literal pattern case-insensitively (pattern given in lowercase);
returns the remaining input on success. -/
def matchLitCI : List Char → List Char → Option (List Char)
  | [], cs => some cs
  | _ :: _, [] => none
  | p :: ps, c :: cs => if c.toLower = p then matchLitCI ps cs else none

/-- Match a literal pattern case-sensitively; returns the remaining input. -/
def matchLitCS : List Char → List Char → Option (List Char)
  | [], cs => some cs
  | _ :: _, [] => none
  | p :: ps, c :: cs => if c = p then matchLitCS ps cs else none

/-- Regex `search`: try the matcher at every start position, leftmost first. -/
def reSearch (m : List Char → Option α) : List Char → Option α
  | [] => m []
  | c :: cs =>
      match m (c :: cs) with
      | some r => some r
      | none => reSearch m cs

/-- Python `sub in s` (case-sensitive substring test). -/
def containsSub (s : String) (sub : String) : Bool :=
  (reSearch (fun cs => matchLitCS sub.data cs) s.data).isSome

/-- Character class `[0-9a-f:]` under `re.IGNORECASE`. -/
def isHexColonCI (c : Char) : Bool :=
  c.isDigit || ('a' ≤ c && c ≤ 'f') || ('A' ≤ c && c ≤ 'F') || c = ':'

/-- Lowercase hex digit (class `[0-9a-f]`). -/
def isHexLower (c : Char) : Bool := c.isDigit || ('a' ≤ c && c ≤ 'f')

/-- Character class `[-0-9.]` of the signal-strength regexes. -/
def isSigChar (c : Char) : Bool := c.isDigit || c = '-' || c = '.'

/-- Take exactly `n` characters of a class; fails if fewer are available. -/
def takeClass (cls : Char → Bool) : ℕ → List Char → Option (List Char × List Char)
  | 0, cs => some ([], cs)
  | _ + 1, [] => none
  | n + 1, c :: cs =>
      if cls c then (takeClass cls n cs).map (fun p => (c :: p.1, p.2)) else none

/-- `BSSID_RE = ^[0-9a-f]{2}(?::[0-9a-f]{2}){5}$` as a full-string match: the
canonical lowercase 6-octet colon-hex hardware-address form. -/
def BSSID_RE_fullmatch (s : String) : Bool :=
  s.data.length = 17 &&
    (List.range 17).all (fun i =>
      match s.data.get? i with
      | none => false
      | some c => if i % 3 = 2 then c = ':' else isHexLower c)

/-- `SCAN_BSS_RE = ^BSS\s+([0-9a-f:]{17})\(` (IGNORECASE), anchored at the
start of a line; returns the captured group.  The quantifiers are
deterministic here: `\s+` is followed by a class that contains no whitespace
and `{17}` is an exact count, so no backtracking choices arise. -/
def scanBssMatch (line : String) : Option String :=
  match matchLitCI "bss".data line.data with
  | none => none
  | some r1 =>
      if (r1.takeWhile isPySpace).isEmpty then none
      else
        match takeClass isHexColonCI 17 (r1.dropWhile isPySpace) with
        | none => none
        | some (g, r3) =>
            match r3 with
            | '(' :: _ => some (String.mk g)
            | _ => none

/-- Matcher for `signal:\s*([-0-9.]+)\s*dBm` (IGNORECASE) at one position:
returns the captured group.  Greedy `\s*` and `[-0-9.]+` are deterministic
because neither 'd'/'D' nor whitespace belongs to the class `[-0-9.]`. -/
def signalGroupAt (cs : List Char) : Option String :=
  match matchLitCI "signal:".data cs with
  | none => none
  | some r1 =>
      let g := (r1.dropWhile isPySpace).takeWhile isSigChar
      let r3 := (r1.dropWhile isPySpace).dropWhile isSigChar
      if g.isEmpty then none
      else
        match matchLitCI "dbm".data (r3.dropWhile isPySpace) with
        | some _ => some (String.mk g)
        | none => none

/-- `SCAN_SIGNAL_RE.search` / `LINK_SIGNAL_RE.search` (the two regexes are
identical): leftmost match of `signal:\s*([-0-9.]+)\s*dBm`. -/
def lineSignal? (s : String) : Option String := reSearch signalGroupAt s.data

/-- Matcher for `last seen:\s*([0-9]+)\s*ms ago` (IGNORECASE) at one
position; deterministic for the same reason as `signalGroupAt`. -/
def lastSeenGroupAt (cs : List Char) : Option String :=
  match matchLitCI "last seen:".data cs with
  | none => none
  | some r1 =>
      let g := (r1.dropWhile isPySpace).takeWhile Char.isDigit
      let r3 := (r1.dropWhile isPySpace).dropWhile Char.isDigit
      if g.isEmpty then none
      else
        match matchLitCI "ms ago".data (r3.dropWhile isPySpace) with
        | some _ => some (String.mk g)
        | none => none

/-- `SCAN_LAST_SEEN_RE.search`. -/
def lineAge? (s : String) : Option String := reSearch lastSeenGroupAt s.data

/-- Matcher for `Connected to ([0-9a-f:]{17})` (IGNORECASE) at one position. -/
def linkBssidAt (cs : List Char) : Option String :=
  match matchLitCI "connected to ".data cs with
  | none => none
  | some r1 =>
      match takeClass isHexColonCI 17 r1 with
      | none => none
      | some (g, _) => some (String.mk g)

/-- `LINK_BSSID_RE.search`. -/
def linkBssidMatch (out : String) : Option String := reSearch linkBssidAt out.data

/-- Backtracking of `\s*(.+)` after `SSID:`: try consuming `j` whitespace
characters (largest first); `.` matches any character except a newline, and
`.+` then greedily captures to the end of the line. -/
def ssidTryAt (r1 : List Char) (j : ℕ) : Option String :=
  match r1.drop j with
  | c :: rest =>
      if c ≠ '\n' then some (String.mk ((c :: rest).takeWhile (fun x => x ≠ '\n')))
      else none
  | [] => none

/-- Try whitespace counts `j, j-1, …, 0` in turn (greedy `\s*` backtracking). -/
def ssidCapture (r1 : List Char) : ℕ → Option String
  | 0 => ssidTryAt r1 0
  | j + 1 =>
      match ssidTryAt r1 (j + 1) with
      | some s => some s
      | none => ssidCapture r1 j

/-- Matcher for `SSID:\s*(.+)` (case-sensitive) at one position. -/
def linkSsidAt (cs : List Char) : Option String :=
  match matchLitCS "SSID:".data cs with
  | none => none
  | some r1 => ssidCapture r1 (r1.takeWhile isPySpace).length

/-- `LINK_SSID_RE.search`. -/
def linkSsidMatch (out : String) : Option String := reSearch linkSsidAt out.data

/-- `LINK_SIGNAL_RE.search` over the whole link output. -/
def linkSignalMatch (out : String) : Option String := lineSignal? out

/-- Python `str.splitlines` line-boundary characters (plus the two-character
boundary `\r\n`, handled separately). -/
def isLineBreakChar (c : Char) : Bool :=
  c = '\n' || c = '\r' || c = '\x0b' || c = '\x0c' || c = '\x1c' || c = '\x1d' ||
  c = '\x1e' || c = '\x85' || c = ' ' || c = ' '

/-- Worker for `pySplitlines`. -/
def pySplitlinesGo : List Char → List Char → List String
  | [], acc => [String.mk acc.reverse]
  | '\r' :: '\n' :: rest, acc =>
      String.mk acc.reverse :: (if rest.isEmpty then [] else pySplitlinesGo rest [])
  | c :: rest, acc =>
      if isLineBreakChar c then
        String.mk acc.reverse :: (if rest.isEmpty then [] else pySplitlinesGo rest [])
      else pySplitlinesGo rest (c :: acc)

/-- Python `str.splitlines()`: split at line boundaries, a trailing boundary
producing no extra empty line. -/
def pySplitlines (s : String) : List String :=
  if s.data.isEmpty then [] else pySplitlinesGo s.data []

/-- Runtime options (`RuntimeConfig` dataclass). -/
structure RuntimeConfig where
  interface : String
  poll_interval_sec : ℚ
  scan_interval_sec : ℚ
  scan_timeout_sec : ℚ
  roam_margin_db : ℚ
  roam_cooldown_sec : ℚ
  scan_freshness_ms : ℕ
  disconnect_grace_sec : ℚ
  disconnect_pause_sec : ℚ
  connect_cooldown_sec : ℚ
  brightness : ℚ
  unknown_mode : String
  signal_min_dbm : ℚ
  signal_max_dbm : ℚ
  pixels : ℤ
deriving DecidableEq

/-- A configured tower (`Tower` dataclass). -/
structure Tower where
  ssid : String
  bssid : String
  color : ℚ × ℚ × ℚ
  freq : ℤ
deriving DecidableEq

/-- Current association snapshot (`LinkState` dataclass); "no association" is
`none` at the use sites, not a sentinel value. -/
structure LinkState where
  ssid : String
  bssid : String
  signal_dbm : Option ℚ
deriving DecidableEq

/-- Origin tag of an observation (the `source` field, `"scan"` or `"link"`). -/
inductive ObsSource
  | scan
  | link
deriving DecidableEq

/-- A per-tower observation (`SeenTower` dataclass). -/
structure SeenTower where
  ssid : String
  bssid : String
  signal_dbm : ℚ
  age_ms : Option ℕ
  source : ObsSource
deriving DecidableEq

/-- The observation mapping `dict[str, SeenTower]`, keyed by ssid. -/
abbrev SeenMap := List (String × SeenTower)

/-- External side effects of the roam decision engine, in program order:
`iw` link reads, scans, disconnects, `IwClient.connect` invocations
(`connectCall`) and the individual `iw … connect` subprocess attempts each
such invocation makes (`connectProc`, with the address argument it passed). -/
inductive Event
  | linkCall
  | scanCall
  | disconnectCall
  | connectCall (ssid : String) (bssid : Option String)
  | connectProc (ssid : String) (bssid : Option String)
deriving DecidableEq

/-- `IwClient.link`, as a function of the raw `iw dev … link` output text.
Returns `Except.error ()` where the Python code raises (`float(...)` on an
unparsable matched signal group); `Except.ok none` is "no association". -/
def IwClient.link (out : String) : Except Unit (Option LinkState) :=
  if containsSub out "Not connected." then Except.ok none
  else
    match linkBssidMatch out, linkSsidMatch out with
    | some b, some s =>
        match linkSignalMatch out with
        | none => Except.ok (some ⟨pyStrip s, lowerStr b, none⟩)
        | some g =>
            match parseFloat g with
            | some q => Except.ok (some ⟨pyStrip s, lowerStr b, some q⟩)
            | none => Except.error ()
    | _, _ => Except.ok none

/-- `IwClient.connect`, as a function of a subprocess outcome oracle `ok`:
an address-qualified attempt first (when the address is truthy), then an
identity-only retry if it failed.  Returns the success flag and the trace of
subprocess attempts. -/
def IwClient.connect (ok : String → Option String → Bool) (ssid : String)
    (bssid : Option String) : Bool × List Event :=
  if bssid.getD "" ≠ "" then
    if ok ssid bssid then (true, [Event.connectProc ssid bssid])
    else (ok ssid none, [Event.connectProc ssid bssid, Event.connectProc ssid none])
  else (ok ssid none, [Event.connectProc ssid none])

/-- Mutable state of `parse_scan_seen_towers`'s line loop. -/
structure ScanAcc where
  seen : SeenMap
  cur_bssid : Option String
  cur_signal : Option ℚ
  cur_age_ms : Option ℕ

/-- The `commit_current` closure: record the pending block if it has both an
address and a signal, the address belongs to a registered tower, and it beats
any previously recorded signal for that tower. -/
def commit_current (bm : List (String × String)) (a : ScanAcc) : SeenMap :=
  match a.cur_bssid, a.cur_signal with
  | some b, some sig =>
      match pyGet bm b with
      | none => a.seen
      | some ssid =>
          if ssid = "" then a.seen
          else
            match pyGet a.seen ssid with
            | none => pyDictSet a.seen ssid ⟨ssid, b, sig, a.cur_age_ms, ObsSource.scan⟩
            | some prev =>
                if sig > prev.signal_dbm then
                  pyDictSet a.seen ssid ⟨ssid, b, sig, a.cur_age_ms, ObsSource.scan⟩
                else a.seen
  | _, _ => a.seen

/-- One iteration of `parse_scan_seen_towers`'s line loop. -/
def scan_line_step (bm : List (String × String)) (a : ScanAcc) (line : String) :
    Except Unit ScanAcc :=
  match scanBssMatch line with
  | some g => Except.ok ⟨commit_current bm a, some (lowerStr g), none, none⟩
  | none =>
      match a.cur_bssid with
      | none => Except.ok a
      | some _ =>
          match lineSignal? line with
          | some g =>
              match parseFloat g with
              | some q => Except.ok { a with cur_signal := some q }
              | none => Except.error ()
          | none =>
              match lineAge? line with
              | some g => Except.ok { a with cur_age_ms := some (digitsToNat g.data) }
              | none => Except.ok a

/-- The parser's loop over the scan-output lines. -/
def scan_lines_loop (bm : List (String × String)) : ScanAcc → List String → Except Unit ScanAcc
  | a, [] => Except.ok a
  | a, l :: ls =>
      match scan_line_step bm a l with
      | Except.ok a2 => scan_lines_loop bm a2 ls
      | Except.error e => Except.error e

/-- `parse_scan_seen_towers`: run the line loop over the scan output and
commit the final pending block. -/
def parse_scan_seen_towers (scan_output : String) (bm : List (String × String)) :
    Except Unit SeenMap :=
  match scan_lines_loop bm ⟨[], none, none, none⟩ (pySplitlines scan_output) with
  | Except.ok a => Except.ok (commit_current bm a)
  | Except.error e => Except.error e

/-- `maybe_fill_current_from_link`: inject a link-sourced observation for the
current tower unless a sufficiently fresh scan-sourced one already exists. -/
def maybe_fill_current_from_link (seen : SeenMap) (current : Option LinkState)
    (cfg : RuntimeConfig) (bssid_map : List (String × String)) : SeenMap :=
  match current with
  | none => seen
  | some c =>
      if pyGet bssid_map c.bssid ≠ some c.ssid then seen
      else
        match c.signal_dbm with
        | none => seen
        | some q =>
            match pyGet seen c.ssid with
            | some ex =>
                if ex.source = ObsSource.scan ∧ ex.age_ms.isSome = true ∧
                    ex.age_ms.getD 0 ≤ cfg.scan_freshness_ms then seen
                else pyDictSet seen c.ssid ⟨c.ssid, c.bssid, q, none, ObsSource.link⟩
            | none => pyDictSet seen c.ssid ⟨c.ssid, c.bssid, q, none, ObsSource.link⟩

/-- Python truthiness of the optional current ssid in
`pick_best_non_current`. -/
def ssidTruthy : Option String → Bool
  | none => false
  | some s => !(s = "")

/-- Loop body of `pick_best_non_current`: skip entries matching the (truthy)
current ssid; a strictly stronger entry replaces the running best, so ties
keep the first-encountered entry. -/
def pick_step (current_ssid : Option String) (best : Option SeenTower)
    (p : String × SeenTower) : Option SeenTower :=
  if ssidTruthy current_ssid = true ∧ p.2.ssid = current_ssid.getD "" then best
  else
    match best with
    | none => some p.2
    | some b => if p.2.signal_dbm > b.signal_dbm then some p.2 else best

/-- `pick_best_non_current`: strongest observation among entries not matching
the current ssid. -/
def pick_best_non_current (seen : SeenMap) (current_ssid : Option String) :
    Option SeenTower :=
  seen.foldl (pick_step current_ssid) none

/-- `maybe_roam`, the roam decision engine.  The `iw` collaborator is
modelled by `current` (the result of `iw.link()`), `scanSeen` (the result of
`parse_scan_seen_towers` on the scan output) and the subprocess outcome
oracle `ok`; the returned trace records the external calls in order (log
lines and sleeps are not traced).  Returns the new `last_roam_time`. -/
def maybe_roam (ok : String → Option String → Bool) (current : Option LinkState)
    (scanSeen : SeenMap) (cfg : RuntimeConfig) (bssid_map : List (String × String))
    (now_monotonic last_roam_time : ℚ) : ℚ × List Event :=
  if now_monotonic - last_roam_time < cfg.roam_cooldown_sec then
    (last_roam_time, [])
  else
    let ev0 : List Event := [Event.linkCall, Event.scanCall]
    let seen := maybe_fill_current_from_link scanSeen current cfg bssid_map
    let current_managed : Bool :=
      match current with
      | some c => decide (pyGet bssid_map c.bssid = some c.ssid)
      | none => false
    if seen.isEmpty then (last_roam_time, ev0)
    else
      match pick_best_non_current seen
          (match current, current_managed with
           | some c, true => some c.ssid
           | _, _ => none) with
      | none => (last_roam_time, ev0)
      | some best =>
          if current_managed then
            match current with
            | none => (last_roam_time, ev0)
            | some cur =>
                match pyGet seen cur.ssid with
                | none => (last_roam_time, ev0)
                | some cur_seen =>
                    if best.ssid ≠ cur.ssid ∧
                        best.signal_dbm > cur_seen.signal_dbm + cfg.roam_margin_db then
                      let c := IwClient.connect ok best.ssid (some best.bssid)
                      if c.1 then
                        (now_monotonic,
                          ev0 ++ [Event.disconnectCall,
                            Event.connectCall best.ssid (some best.bssid)] ++ c.2)
                      else
                        let r := IwClient.connect ok cur.ssid (some cur.bssid)
                        (last_roam_time,
                          ev0 ++ [Event.disconnectCall,
                            Event.connectCall best.ssid (some best.bssid)] ++ c.2 ++
                            [Event.connectCall cur.ssid (some cur.bssid)] ++ r.2)
                    else (last_roam_time, ev0)
          else
            let discEv : List Event :=
              match current with
              | some _ => [Event.disconnectCall]
              | none => []
            let c := IwClient.connect ok best.ssid (some best.bssid)
            if c.1 then
              (now_monotonic,
                ev0 ++ discEv ++ [Event.connectCall best.ssid (some best.bssid)] ++ c.2)
            else
              (last_roam_time,
                ev0 ++ discEv ++ [Event.connectCall best.ssid (some best.bssid)] ++ c.2)

/-- The dedup key of the indicator (`visual_key` tuples in `run_daemon`). -/
inductive VisualKey
  | unknown (mode : String)
  | unknownSsid (ssid : String)
  | tower (ssid : String) (level : ℤ)
deriving DecidableEq

/-- A hardware render: the LED write together with its log line (they are
emitted under the same guard in `run_daemon`). -/
inductive RenderEvent
  | renderUnknown
  | renderTower (color : ℚ × ℚ × ℚ) (count : ℤ)
deriving DecidableEq

/-- `clamp01`. -/
def clamp01 (q : ℚ) : ℚ := max 0 (min 1 q)

/-- Python `int(...)` on a float: truncation toward zero. -/
def pyInt (q : ℚ) : ℤ := if q < 0 then -(⌊-q⌋) else ⌊q⌋

/-- `signal_to_led_count`. -/
def signal_to_led_count (signal_dbm : Option ℚ) (cfg : RuntimeConfig) : ℤ :=
  match signal_dbm with
  | none => 1
  | some s =>
      let lo := cfg.signal_min_dbm
      let hi := cfg.signal_max_dbm
      if hi ≤ lo then cfg.pixels
      else pyInt (clamp01 ((s - lo) / (hi - lo)) * ((cfg.pixels : ℚ) - 1)) + 1

/-- One indicator cycle of `run_daemon`'s loop body (the part after the link
read): derive the visual key from the link state, render only when it differs
from the last applied key.  Returns the new last applied key, the new
`last_seen_connected`, and the renders performed. -/
def indicator_step (cfg : RuntimeConfig) (towers : List (String × Tower))
    (now last_seen_connected : ℚ) (link : Option LinkState)
    (last_visual_key : Option VisualKey) : Option VisualKey × ℚ × List RenderEvent :=
  match link with
  | none =>
      if now - last_seen_connected ≥ cfg.disconnect_grace_sec then
        let vk := VisualKey.unknown cfg.unknown_mode
        if some vk ≠ last_visual_key then
          (some vk, last_seen_connected, [RenderEvent.renderUnknown])
        else (last_visual_key, last_seen_connected, [])
      else (last_visual_key, last_seen_connected, [])
  | some l =>
      match pyGet towers l.ssid with
      | none =>
          let vk := VisualKey.unknownSsid l.ssid
          if some vk ≠ last_visual_key then (some vk, now, [RenderEvent.renderUnknown])
          else (last_visual_key, now, [])
      | some t =>
          let level := signal_to_led_count l.signal_dbm cfg
          let vk := VisualKey.tower t.ssid level
          if some vk ≠ last_visual_key then (some vk, now, [RenderEvent.renderTower t.color level])
          else (last_visual_key, now, [])

/-- The visual key a cycle derives (spec-side helper: `indicator_step`
renders exactly when this key exists and differs from the last applied). -/
def visual_key_of (cfg : RuntimeConfig) (towers : List (String × Tower))
    (now last_seen_connected : ℚ) (link : Option LinkState) : Option VisualKey :=
  match link with
  | none =>
      if now - last_seen_connected ≥ cfg.disconnect_grace_sec then
        some (VisualKey.unknown cfg.unknown_mode)
      else none
  | some l =>
      match pyGet towers l.ssid with
      | none => some (VisualKey.unknownSsid l.ssid)
      | some t => some (VisualKey.tower t.ssid (signal_to_led_count l.signal_dbm cfg))

/-- JSON values, the shape of the parsed tower-registry file. -/
inductive JsonVal
  | jnum (q : ℚ)
  | jbool (b : Bool)
  | jstr (s : String)
  | jarr (l : List JsonVal)
  | jobj (l : List (String × JsonVal))
  | jnull

/-- `_validate_color`: a 3-element list of numerics (booleans rejected),
each clamped into [0,1]; `none` where the Python code raises. -/
def validate_color (color : Option JsonVal) : Option (ℚ × ℚ × ℚ) :=
  match color with
  | some (JsonVal.jarr [JsonVal.jnum r, JsonVal.jnum g, JsonVal.jnum b]) =>
      some (clamp01 r, clamp01 g, clamp01 b)
  | _ => none

/-- One entry of `load_tower_config`'s loop: `none` where the entry is
skipped with a warning (invalid ssid key, non-object entry, or a
`ValueError` from color/freq/bssid validation). -/
def parse_tower_entry (ssid : String) (info : JsonVal) : Option Tower :=
  if pyStrip ssid = "" then none
  else
    match info with
    | JsonVal.jobj fields =>
        match validate_color (pyGet fields "color") with
        | none => none
        | some color =>
            match pyGet fields "freq" with
            | some (JsonVal.jnum f) =>
                let freq_int := pyInt f
                if freq_int ≤ 0 then none
                else
                  match pyGet fields "bssid" with
                  | some (JsonVal.jstr b) =>
                      let bssid_norm := lowerStr (pyStrip b)
                      if BSSID_RE_fullmatch bssid_norm then
                        some ⟨pyStrip ssid, bssid_norm, color, freq_int⟩
                      else none
                  | _ => none
            | _ => none
    | _ => none

/-- Insertion into a sorted list of frequencies. -/
def insertSorted (x : ℤ) : List ℤ → List ℤ
  | [] => [x]
  | y :: ys => if x ≤ y then x :: y :: ys else y :: insertSorted x ys

/-- `sorted(...)` over the collected set of frequencies. -/
def sortInts (l : List ℤ) : List ℤ := l.foldr insertSorted []

/-- `load_tower_config` on the parsed registry JSON object: build the `towers`
dict, the `bssid → ssid` reverse index and the sorted frequency set, skipping
invalid entries; error when no valid tower remains. -/
def load_tower_config (raw : List (String × JsonVal)) :
    Except Unit (List (String × Tower) × List (String × String) × List ℤ) :=
  let acc := raw.foldl
    (fun acc p =>
      match parse_tower_entry p.1 p.2 with
      | none => acc
      | some t =>
          (pyDictSet acc.1 t.ssid t, pyDictSet acc.2.1 t.bssid t.ssid,
           if t.freq ∈ acc.2.2 then acc.2.2 else acc.2.2 ++ [t.freq]))
    ([], [], [])
  if acc.1.isEmpty then Except.error ()
  else Except.ok (acc.1, acc.2.1, sortInts acc.2.2)

theorem pyGet_nil (k : String) : pyGet ([] : List (String × α)) k = none := rfl

theorem pyGet_cons (p : String × α) (m : List (String × α)) (k : String) :
    pyGet (p :: m) k = if p.1 = k then some p.2 else pyGet m k := by
  unfold pyGet
  by_cases h : p.1 = k
  · simp [List.find?, h]
  · simp [List.find?, h]

theorem pyGet_set_self (m : List (String × α)) (k : String) (v : α) :
    pyGet (pyDictSet m k v) k = some v := by
  unfold pyDictSet
  split
  · induction m with
    | nil => simp_all [List.find?]
    | cons p m ih =>
        by_cases h : p.1 = k
        · simp [List.map, h, pyGet_cons]
        · simp only [List.map, h, if_false]
          rw [pyGet_cons]
          simp only [h, if_false]
          apply ih
          simp_all [List.find?, h]
  · induction m with
    | nil => simp [pyGet_cons]
    | cons p m ih =>
        by_cases h : p.1 = k
        · simp_all [List.find?]
        · simp only [List.cons_append]
          rw [pyGet_cons]
          simp only [h, if_false]
          apply ih
          simp_all [List.find?, h]

theorem pyGet_map_set_ne (m : List (String × α)) (k k' : String) (v : α) (h : k' ≠ k) :
    pyGet (m.map (fun p => if p.1 = k then (k, v) else p)) k' = pyGet m k' := by
  induction m with
  | nil => rfl
  | cons p m ih =>
      by_cases hp : p.1 = k
      · simp only [List.map, hp, if_true]
        rw [pyGet_cons, pyGet_cons]
        have hkk : ¬ (k = k') := fun hh => h hh.symm
        simp [hp, hkk, ih]
      · simp only [List.map, hp, if_false]
        rw [pyGet_cons, pyGet_cons]
        by_cases hq : p.1 = k'
        · simp [hq]
        · simp [hq, ih]

theorem pyGet_append_single_ne (m : List (String × α)) (k k' : String) (v : α) (h : k' ≠ k) :
    pyGet (m ++ [(k, v)]) k' = pyGet m k' := by
  induction m with
  | nil =>
      have hkk : ¬ (k = k') := fun hh => h hh.symm
      simp [pyGet_cons, pyGet_nil, hkk]
  | cons p m ih =>
      simp only [List.cons_append]
      rw [pyGet_cons, pyGet_cons]
      by_cases hq : p.1 = k'
      · simp [hq]
      · simp [hq, ih]

theorem pyGet_set_ne (m : List (String × α)) (k k' : String) (v : α) (h : k' ≠ k) :
    pyGet (pyDictSet m k v) k' = pyGet m k' := by
  unfold pyDictSet
  split
  · exact pyGet_map_set_ne m k k' v h
  · exact pyGet_append_single_ne m k k' v h

theorem clamp01_nonneg (q : ℚ) : 0 ≤ clamp01 q := le_max_left 0 (min 1 q)

theorem clamp01_le_one (q : ℚ) : clamp01 q ≤ 1 :=
  max_le (by norm_num) (min_le_left 1 q)

theorem pyInt_of_nonneg (q : ℚ) (h : 0 ≤ q) : pyInt q = ⌊q⌋ := by
  unfold pyInt
  rw [if_neg (not_lt.mpr h)]

/-- C9: for every signal reading and every configuration with
`signal_max_dbm > signal_min_dbm` and a positive pixel count,
`signal_to_led_count` yields a level with `1 ≤ level ≤ pixels`, obtained by
truncating the clamped normalized signal `(s - min)/(max - min)` scaled to
`pixels - 1` and adding one; an absent reading maps to level 1, and the
result is never zero. -/
theorem c9_signal_level_bounds (cfg : RuntimeConfig) (s : Option ℚ)
    (hlo : cfg.signal_min_dbm < cfg.signal_max_dbm) (hpx : 0 < cfg.pixels) :
    (1 ≤ signal_to_led_count s cfg ∧ signal_to_led_count s cfg ≤ cfg.pixels) ∧
    (s = none → signal_to_led_count s cfg = 1) ∧
    (∀ q, s = some q →
      signal_to_led_count s cfg =
        pyInt (clamp01 ((q - cfg.signal_min_dbm) /
          (cfg.signal_max_dbm - cfg.signal_min_dbm)) * ((cfg.pixels : ℚ) - 1)) + 1) := by
  cases s with
  | none =>
      refine ⟨⟨le_refl 1, ?_⟩, fun _ => rfl, fun q h => by cases h⟩
      show (1 : ℤ) ≤ cfg.pixels
      omega
  | some q =>
      have hne : ¬ (cfg.signal_max_dbm ≤ cfg.signal_min_dbm) := not_le.mpr hlo
      have hp1 : (0 : ℚ) ≤ (cfg.pixels : ℚ) - 1 := by
        have h1 : (1 : ℤ) ≤ cfg.pixels := hpx
        have h2 : (1 : ℚ) ≤ (cfg.pixels : ℚ) := by exact_mod_cast h1
        linarith
      have hval : signal_to_led_count (some q) cfg =
          pyInt (clamp01 ((q - cfg.signal_min_dbm) /
            (cfg.signal_max_dbm - cfg.signal_min_dbm)) * ((cfg.pixels : ℚ) - 1)) + 1 := by
        simp only [signal_to_led_count, hne, if_false]
      have h0x : (0 : ℚ) ≤ clamp01 ((q - cfg.signal_min_dbm) /
          (cfg.signal_max_dbm - cfg.signal_min_dbm)) * ((cfg.pixels : ℚ) - 1) :=
        mul_nonneg (clamp01_nonneg _) hp1
      have hx : clamp01 ((q - cfg.signal_min_dbm) /
          (cfg.signal_max_dbm - cfg.signal_min_dbm)) * ((cfg.pixels : ℚ) - 1) ≤
            (cfg.pixels : ℚ) - 1 :=
        mul_le_of_le_one_left hp1 (clamp01_le_one _)
      have hfl0 : (0 : ℤ) ≤ ⌊clamp01 ((q - cfg.signal_min_dbm) /
          (cfg.signal_max_dbm - cfg.signal_min_dbm)) * ((cfg.pixels : ℚ) - 1)⌋ :=
        Int.floor_nonneg.mpr h0x
      have hfl1 : ⌊clamp01 ((q - cfg.signal_min_dbm) /
          (cfg.signal_max_dbm - cfg.signal_min_dbm)) * ((cfg.pixels : ℚ) - 1)⌋ ≤
            cfg.pixels - 1 := by
        have hcast : ((cfg.pixels - 1 : ℤ) : ℚ) = (cfg.pixels : ℚ) - 1 := by push_cast; ring
        calc ⌊clamp01 ((q - cfg.signal_min_dbm) /
              (cfg.signal_max_dbm - cfg.signal_min_dbm)) * ((cfg.pixels : ℚ) - 1)⌋ ≤
            ⌊((cfg.pixels - 1 : ℤ) : ℚ)⌋ := Int.floor_le_floor (by rw [hcast]; exact hx)
          _ = cfg.pixels - 1 := Int.floor_intCast _
      refine ⟨⟨?_, ?_⟩, fun h => Option.noConfusion h, fun q' hq' => ?_⟩
      · rw [hval, pyInt_of_nonneg _ h0x]; omega
      · rw [hval, pyInt_of_nonneg _ h0x]; omega
      · have hqq : q' = q := (Option.some.inj hq').symm
        subst hqq
        exact hval

/-- Example runtime configuration for concrete instantiations. -/
def cfgA : RuntimeConfig :=
  ⟨"wlan0", 1, 2, 3, -2, 4, 1500, 3, 1/4, 1/4, 1/5, "off", -90, -20, 8⟩

/-- Witness for C9 at a concrete configuration and reading. -/
theorem c9_signal_level_bounds_witness :
    1 ≤ signal_to_led_count (some (-55)) cfgA ∧
      signal_to_led_count (some (-55)) cfgA ≤ cfgA.pixels :=
  (c9_signal_level_bounds cfgA (some (-55)) (by decide) (by decide)).1

/-- C5: the reconciler injects/overwrites a link-sourced observation for the
current tower if and only if the link's address maps via the registry reverse
index to the link's identity, a signal value is present, and no scan-sourced
entry for that tower exists with `age_ms` present and at most the freshness
threshold; every other tower's entry is left unchanged. -/
theorem c5_reconciler_freshness (seen : SeenMap) (current : Option LinkState)
    (cfg : RuntimeConfig) (bm : List (String × String)) :
    (current = none → maybe_fill_current_from_link seen current cfg bm = seen) ∧
    (∀ c, current = some c →
      (∀ k, k ≠ c.ssid →
        pyGet (maybe_fill_current_from_link seen current cfg bm) k = pyGet seen k) ∧
      (pyGet bm c.bssid ≠ some c.ssid →
        maybe_fill_current_from_link seen current cfg bm = seen) ∧
      (c.signal_dbm = none →
        maybe_fill_current_from_link seen current cfg bm = seen) ∧
      (∀ q, c.signal_dbm = some q → pyGet bm c.bssid = some c.ssid →
        ((∃ ex a, pyGet seen c.ssid = some ex ∧ ex.source = ObsSource.scan ∧
            ex.age_ms = some a ∧ a ≤ cfg.scan_freshness_ms) →
          maybe_fill_current_from_link seen current cfg bm = seen) ∧
        ((¬ ∃ ex a, pyGet seen c.ssid = some ex ∧ ex.source = ObsSource.scan ∧
            ex.age_ms = some a ∧ a ≤ cfg.scan_freshness_ms) →
          pyGet (maybe_fill_current_from_link seen current cfg bm) c.ssid =
            some ⟨c.ssid, c.bssid, q, none, ObsSource.link⟩))) := by
  refine ⟨fun h => by subst h; rfl, fun c hc => ?_⟩
  subst hc
  by_cases hmap : pyGet bm c.bssid = some c.ssid
  · have hcond : ¬ (pyGet bm c.bssid ≠ some c.ssid) := not_not.mpr hmap
    cases hsig : c.signal_dbm with
    | none =>
        have hfill : maybe_fill_current_from_link seen (some c) cfg bm = seen := by
          simp only [maybe_fill_current_from_link]
          rw [if_neg hcond, hsig]
        exact ⟨fun k _ => by rw [hfill], fun h => absurd hmap h, fun _ => hfill,
          fun q hq => Option.noConfusion hq⟩
    | some q =>
        cases hex : pyGet seen c.ssid with
        | none =>
            have hfill : maybe_fill_current_from_link seen (some c) cfg bm =
                pyDictSet seen c.ssid ⟨c.ssid, c.bssid, q, none, ObsSource.link⟩ := by
              simp only [maybe_fill_current_from_link]
              rw [if_neg hcond, hsig, hex]
            refine ⟨fun k hk => by rw [hfill]; exact pyGet_set_ne _ _ _ _ hk,
              fun h => absurd hmap h, fun h => Option.noConfusion h,
              fun q' hq' _ => ?_⟩
            have hqq : q' = q := (Option.some.inj hq').symm
            subst hqq
            refine ⟨fun hfr => ?_, fun _ => by rw [hfill]; exact pyGet_set_self _ _ _⟩
            obtain ⟨ex, a, hget, _, _, _⟩ := hfr
            exact Option.noConfusion hget
        | some ex =>
            by_cases hfresh : ex.source = ObsSource.scan ∧ ex.age_ms.isSome = true ∧
                ex.age_ms.getD 0 ≤ cfg.scan_freshness_ms
            · have hfill : maybe_fill_current_from_link seen (some c) cfg bm = seen := by
                simp only [maybe_fill_current_from_link]
                rw [if_neg hcond, hsig, hex]
                simp only [if_pos hfresh]
              refine ⟨fun k _ => by rw [hfill], fun h => absurd hmap h,
                fun h => Option.noConfusion h, fun q' hq' _ => ?_⟩
              refine ⟨fun _ => hfill, fun hnofr => absurd ?_ hnofr⟩
              obtain ⟨hsrc, hiss, hle⟩ := hfresh
              obtain ⟨a, ha⟩ := Option.isSome_iff_exists.mp hiss
              refine ⟨ex, a, rfl, hsrc, ha, ?_⟩
              rw [ha] at hle
              simpa using hle
            · have hfill : maybe_fill_current_from_link seen (some c) cfg bm =
                  pyDictSet seen c.ssid ⟨c.ssid, c.bssid, q, none, ObsSource.link⟩ := by
                simp only [maybe_fill_current_from_link]
                rw [if_neg hcond, hsig, hex]
                simp only [if_neg hfresh]
              refine ⟨fun k hk => by rw [hfill]; exact pyGet_set_ne _ _ _ _ hk,
                fun h => absurd hmap h, fun h => Option.noConfusion h,
                fun q' hq' _ => ?_⟩
              have hqq : q' = q := (Option.some.inj hq').symm
              subst hqq
              refine ⟨fun hfr => absurd ?_ hfresh,
                fun _ => by rw [hfill]; exact pyGet_set_self _ _ _⟩
              obtain ⟨ex', a, hget, hsrc, hage, hle⟩ := hfr
              have hee : ex' = ex := (Option.some.inj hget).symm
              subst hee
              exact ⟨hsrc, by rw [hage]; rfl, by rw [hage]; simpa using hle⟩
  · have hfill : maybe_fill_current_from_link seen (some c) cfg bm = seen := by
      simp only [maybe_fill_current_from_link]
      rw [if_pos hmap]
    exact ⟨fun k _ => by rw [hfill], fun _ => hfill, fun _ => hfill,
      fun q hq hmap' => absurd hmap' hmap⟩

/-- Example registry reverse index. -/
def bmA : List (String × String) := [("aa:aa:aa:aa:aa:aa", "A"), ("bb:bb:bb:bb:bb:bb", "B")]

/-- Current link for the freshness scenarios. -/
def linkA : LinkState := ⟨"A", "aa:aa:aa:aa:aa:aa", some (-70)⟩

/-- Stale scan observation (age 2000 ms) for the current tower. -/
def seenStale : SeenMap := [("A", ⟨"A", "aa:aa:aa:aa:aa:aa", -71, some 2000, ObsSource.scan⟩)]

/-- Fresh scan observation (age 500 ms) for the current tower. -/
def seenFresh : SeenMap := [("A", ⟨"A", "aa:aa:aa:aa:aa:aa", -71, some 500, ObsSource.scan⟩)]

/-- Witness for C5: with threshold 1500, the age-2000 scan entry is overridden
by the live reading and the age-500 one is not. -/
theorem c5_reconciler_freshness_witness :
    pyGet (maybe_fill_current_from_link seenStale (some linkA) cfgA bmA) "A" =
      some ⟨"A", "aa:aa:aa:aa:aa:aa", -70, none, ObsSource.link⟩ ∧
    maybe_fill_current_from_link seenFresh (some linkA) cfgA bmA = seenFresh := by
  constructor
  · refine ((((c5_reconciler_freshness seenStale (some linkA) cfgA bmA).2 linkA rfl).2.2.2
      (-70) rfl (by decide)).2 ?_)
    rintro ⟨ex, a, hex, hsrc, hage, hle⟩
    have hxx : ex = ⟨"A", "aa:aa:aa:aa:aa:aa", -71, some 2000, ObsSource.scan⟩ := by
      have h2 : pyGet seenStale linkA.ssid =
          some ⟨"A", "aa:aa:aa:aa:aa:aa", -71, some 2000, ObsSource.scan⟩ := by decide
      rw [h2] at hex
      exact (Option.some.inj hex).symm
    subst hxx
    have haa : a = 2000 := (Option.some.inj hage).symm
    subst haa
    have : cfgA.scan_freshness_ms = 1500 := rfl
    omega
  · refine (((((c5_reconciler_freshness seenFresh (some linkA) cfgA bmA).2 linkA rfl).2.2.2
      (-70) rfl (by decide)).1 ?_))
    exact ⟨⟨"A", "aa:aa:aa:aa:aa:aa", -71, some 500, ObsSource.scan⟩, 500, by decide, rfl, rfl,
      by decide⟩

theorem pick_step_skip (cs : Option String) (best : Option SeenTower) (p : String × SeenTower)
    (hc : ssidTruthy cs = true ∧ p.2.ssid = cs.getD "") : pick_step cs best p = best := by
  unfold pick_step; rw [if_pos hc]

theorem pick_step_none (cs : Option String) (p : String × SeenTower)
    (hc : ¬ (ssidTruthy cs = true ∧ p.2.ssid = cs.getD "")) :
    pick_step cs none p = some p.2 := by
  unfold pick_step; rw [if_neg hc]

theorem pick_step_some_gt (cs : Option String) (a : SeenTower) (p : String × SeenTower)
    (hc : ¬ (ssidTruthy cs = true ∧ p.2.ssid = cs.getD ""))
    (hgt : p.2.signal_dbm > a.signal_dbm) : pick_step cs (some a) p = some p.2 := by
  unfold pick_step
  rw [if_neg hc]
  show (if p.2.signal_dbm > a.signal_dbm then some p.2 else some a) = some p.2
  rw [if_pos hgt]

theorem pick_step_some_le (cs : Option String) (a : SeenTower) (p : String × SeenTower)
    (hc : ¬ (ssidTruthy cs = true ∧ p.2.ssid = cs.getD ""))
    (hgt : ¬ p.2.signal_dbm > a.signal_dbm) : pick_step cs (some a) p = some a := by
  unfold pick_step
  rw [if_neg hc]
  show (if p.2.signal_dbm > a.signal_dbm then some p.2 else some a) = some a
  rw [if_neg hgt]

theorem pick_fold_mem (cs : Option String) :
    ∀ (ls : SeenMap) (acc : Option SeenTower) (b : SeenTower),
      ls.foldl (pick_step cs) acc = some b →
      acc = some b ∨ ∃ p ∈ ls, p.2 = b ∧
        ¬ (ssidTruthy cs = true ∧ p.2.ssid = cs.getD "") := by
  intro ls
  induction ls with
  | nil => intro acc b h; exact Or.inl h
  | cons p ls ih =>
      intro acc b h
      rw [List.foldl_cons] at h
      rcases ih (pick_step cs acc p) b h with hacc | ⟨p', hp', hb, hskip⟩
      · by_cases hc : ssidTruthy cs = true ∧ p.2.ssid = cs.getD ""
        · rw [pick_step_skip cs acc p hc] at hacc
          exact Or.inl hacc
        · cases acc with
          | none =>
              rw [pick_step_none cs p hc] at hacc
              exact Or.inr ⟨p, List.mem_cons_self _ _, Option.some.inj hacc, hc⟩
          | some a =>
              by_cases hgt : p.2.signal_dbm > a.signal_dbm
              · rw [pick_step_some_gt cs a p hc hgt] at hacc
                exact Or.inr ⟨p, List.mem_cons_self _ _, Option.some.inj hacc, hc⟩
              · rw [pick_step_some_le cs a p hc hgt] at hacc
                exact Or.inl hacc
      · exact Or.inr ⟨p', List.mem_cons_of_mem _ hp', hb, hskip⟩

theorem pick_fold_max (cs : Option String) :
    ∀ (ls : SeenMap) (acc : Option SeenTower) (b : SeenTower),
      ls.foldl (pick_step cs) acc = some b →
      (∀ a, acc = some a → a.signal_dbm ≤ b.signal_dbm) ∧
      (∀ p ∈ ls, ¬ (ssidTruthy cs = true ∧ p.2.ssid = cs.getD "") →
        p.2.signal_dbm ≤ b.signal_dbm) := by
  intro ls
  induction ls with
  | nil =>
      intro acc b h
      refine ⟨fun a ha => ?_, fun p hp _ => absurd hp (List.not_mem_nil p)⟩
      rw [List.foldl_nil] at h
      rw [ha] at h
      rw [Option.some.inj h]
  | cons p ls ih =>
      intro acc b h
      rw [List.foldl_cons] at h
      obtain ⟨ihacc, ihrest⟩ := ih (pick_step cs acc p) b h
      constructor
      · intro a ha
        subst ha
        by_cases hc : ssidTruthy cs = true ∧ p.2.ssid = cs.getD ""
        · exact ihacc a (pick_step_skip cs (some a) p hc)
        · by_cases hgt : p.2.signal_dbm > a.signal_dbm
          · have hle := ihacc p.2 (pick_step_some_gt cs a p hc hgt)
            exact le_trans (le_of_lt hgt) hle
          · exact ihacc a (pick_step_some_le cs a p hc hgt)
      · intro p' hp' hskip
        rcases List.mem_cons.mp hp' with hhead | htail
        · subst hhead
          cases acc with
          | none => exact ihacc p'.2 (pick_step_none cs p' hskip)
          | some a =>
              by_cases hgt : p'.2.signal_dbm > a.signal_dbm
              · exact ihacc p'.2 (pick_step_some_gt cs a p' hskip hgt)
              · exact le_trans (not_lt.mp hgt) (ihacc a (pick_step_some_le cs a p' hskip hgt))
        · exact ihrest p' htail hskip

theorem pick_fold_none (cs : Option String) :
    ∀ (ls : SeenMap) (acc : Option SeenTower),
      ls.foldl (pick_step cs) acc = none →
      acc = none ∧ ∀ p ∈ ls, ssidTruthy cs = true ∧ p.2.ssid = cs.getD "" := by
  intro ls
  induction ls with
  | nil =>
      intro acc h
      exact ⟨h, fun p hp => absurd hp (List.not_mem_nil p)⟩
  | cons p ls ih =>
      intro acc h
      rw [List.foldl_cons] at h
      obtain ⟨hacc, hrest⟩ := ih (pick_step cs acc p) h
      by_cases hc : ssidTruthy cs = true ∧ p.2.ssid = cs.getD ""
      · rw [pick_step_skip cs acc p hc] at hacc
        exact ⟨hacc, fun p' hp' => (List.mem_cons.mp hp').elim (fun he => he ▸ hc)
          (fun ht => hrest p' ht)⟩
      · exfalso
        cases acc with
        | none =>
            rw [pick_step_none cs p hc] at hacc
            exact Option.noConfusion hacc
        | some a =>
            by_cases hgt : p.2.signal_dbm > a.signal_dbm
            · rw [pick_step_some_gt cs a p hc hgt] at hacc
              exact Option.noConfusion hacc
            · rw [pick_step_some_le cs a p hc hgt] at hacc
              exact Option.noConfusion hacc

/-- Whether an event is an `IwClient.connect` invocation. -/
def isConnectCall : Event → Bool
  | Event.connectCall _ _ => true
  | _ => false

/-- Number of `IwClient.connect` invocations in a trace. -/
def countConnectCalls (ev : List Event) : ℕ := (ev.filter isConnectCall).length

theorem countConnectCalls_append (a b : List Event) :
    countConnectCalls (a ++ b) = countConnectCalls a + countConnectCalls b := by
  unfold countConnectCalls
  rw [List.filter_append, List.length_append]

theorem connect_true_of_all (ok : String → Option String → Bool)
    (h : ∀ s b, ok s b = true) (s : String) (b : Option String) :
    (IwClient.connect ok s b).1 = true := by
  unfold IwClient.connect
  by_cases hb : b.getD "" ≠ ""
  · rw [if_pos hb, if_pos (h s b)]
  · rw [if_neg hb]
    exact h s none

theorem connect_no_calls (ok : String → Option String → Bool) (s : String)
    (b : Option String) : countConnectCalls (IwClient.connect ok s b).2 = 0 := by
  unfold IwClient.connect
  by_cases hb : b.getD "" ≠ ""
  · rw [if_pos hb]
    by_cases hok2 : ok s b = true
    · rw [if_pos hok2]; rfl
    · rw [if_neg hok2]; rfl
  · rw [if_neg hb]; rfl

theorem pick_nonempty_some (seen : SeenMap) (hne : seen ≠ []) :
    ∃ b, pick_best_non_current seen none = some b := by
  cases hp : pick_best_non_current seen none with
  | some b => exact ⟨b, rfl⟩
  | none =>
      exfalso
      unfold pick_best_non_current at hp
      obtain ⟨_, hall⟩ := pick_fold_none none seen none hp
      cases seen with
      | nil => exact hne rfl
      | cons p l =>
          have := (hall p (List.mem_cons_self _ _)).1
          simp [ssidTruthy] at this

/-- C2: an invocation of the roam decision step within the cooldown returns
`last_roam_time` unchanged with an empty side-effect trace (no link read, no
scan, no disconnect, no connect); and when disconnected with at least one
known tower observed, the bootstrap path invokes connect exactly once,
advances `last_roam_time` to now, and a re-invocation within
`roam_cooldown_sec` of that successful connect performs no further side
effects at all. -/
theorem c2_cooldown_skip_and_bootstrap_once :
    (∀ (ok : String → Option String → Bool) (current : Option LinkState)
       (scanSeen : SeenMap) (cfg : RuntimeConfig) (bm : List (String × String))
       (now last : ℚ), now - last < cfg.roam_cooldown_sec →
       maybe_roam ok current scanSeen cfg bm now last = (last, [])) ∧
    (∀ (ok : String → Option String → Bool) (scanSeen : SeenMap) (cfg : RuntimeConfig)
       (bm : List (String × String)) (now last : ℚ),
       ¬ (now - last < cfg.roam_cooldown_sec) → scanSeen ≠ [] →
       (∀ s b, ok s b = true) →
       (maybe_roam ok none scanSeen cfg bm now last).1 = now ∧
       countConnectCalls (maybe_roam ok none scanSeen cfg bm now last).2 = 1 ∧
       (∀ (ok2 : String → Option String → Bool) (cur2 : Option LinkState)
          (seen2 : SeenMap) (now2 : ℚ), now2 - now < cfg.roam_cooldown_sec →
          maybe_roam ok2 cur2 seen2 cfg bm now2 now = (now, []))) := by
  constructor
  · intro ok current scanSeen cfg bm now last h
    unfold maybe_roam
    rw [if_pos h]
  · intro ok scanSeen cfg bm now last hcool hne hokAll
    have hie : scanSeen.isEmpty = false := by
      cases scanSeen with
      | nil => exact absurd rfl hne
      | cons p l => rfl
    obtain ⟨best, hbest⟩ := pick_nonempty_some scanSeen hne
    have hc1 : (IwClient.connect ok best.ssid (some best.bssid)).1 = true :=
      connect_true_of_all ok hokAll best.ssid (some best.bssid)
    have hev : maybe_roam ok none scanSeen cfg bm now last =
        (now, [Event.linkCall, Event.scanCall] ++ [] ++
          [Event.connectCall best.ssid (some best.bssid)] ++
          (IwClient.connect ok best.ssid (some best.bssid)).2) := by
      unfold maybe_roam
      rw [if_neg hcool]
      simp only [maybe_fill_current_from_link, hie, Bool.false_eq_true, if_false, hbest, hc1,
        if_true]
    refine ⟨by rw [hev], ?_, ?_⟩
    · rw [hev]
      rw [countConnectCalls_append, countConnectCalls_append, countConnectCalls_append,
        connect_no_calls]
      rfl
    · intro ok2 cur2 seen2 now2 h2
      unfold maybe_roam
      rw [if_pos h2]

theorem fill_none (seen : SeenMap) (cfg : RuntimeConfig) (bm : List (String × String)) :
    maybe_fill_current_from_link seen none cfg bm = seen := rfl

theorem fill_unmanaged (seen : SeenMap) (c : LinkState) (cfg : RuntimeConfig)
    (bm : List (String × String)) (h : pyGet bm c.bssid ≠ some c.ssid) :
    maybe_fill_current_from_link seen (some c) cfg bm = seen := by
  simp only [maybe_fill_current_from_link]
  rw [if_pos h]

theorem pyGet_mem (m : List (String × α)) (k : String) (v : α) (h : pyGet m k = some v) :
    ∃ p ∈ m, p.1 = k ∧ p.2 = v := by
  unfold pyGet at h
  cases hf : m.find? (fun p => decide (p.1 = k)) with
  | none => rw [hf] at h; exact Option.noConfusion h
  | some p =>
      rw [hf] at h
      refine ⟨p, List.mem_of_find?_eq_some hf, ?_, Option.some.inj h⟩
      have := List.find?_some hf
      exact of_decide_eq_true this

theorem maybe_roam_managed_eval (ok : String → Option String → Bool) (L : LinkState)
    (scanSeen : SeenMap) (cfg : RuntimeConfig) (bm : List (String × String))
    (now last : ℚ) (hcool : ¬ (now - last < cfg.roam_cooldown_sec))
    (hmng : pyGet bm L.bssid = some L.ssid) :
    maybe_roam ok (some L) scanSeen cfg bm now last =
      (if (maybe_fill_current_from_link scanSeen (some L) cfg bm).isEmpty then
         (last, [Event.linkCall, Event.scanCall])
       else
         match pick_best_non_current (maybe_fill_current_from_link scanSeen (some L) cfg bm)
             (some L.ssid) with
         | none => (last, [Event.linkCall, Event.scanCall])
         | some best =>
             match pyGet (maybe_fill_current_from_link scanSeen (some L) cfg bm) L.ssid with
             | none => (last, [Event.linkCall, Event.scanCall])
             | some cur_seen =>
                 if best.ssid ≠ L.ssid ∧
                     best.signal_dbm > cur_seen.signal_dbm + cfg.roam_margin_db then
                   if (IwClient.connect ok best.ssid (some best.bssid)).1 then
                     (now, [Event.linkCall, Event.scanCall] ++
                       [Event.disconnectCall, Event.connectCall best.ssid (some best.bssid)] ++
                       (IwClient.connect ok best.ssid (some best.bssid)).2)
                   else
                     (last, [Event.linkCall, Event.scanCall] ++
                       [Event.disconnectCall, Event.connectCall best.ssid (some best.bssid)] ++
                       (IwClient.connect ok best.ssid (some best.bssid)).2 ++
                       [Event.connectCall L.ssid (some L.bssid)] ++
                       (IwClient.connect ok L.ssid (some L.bssid)).2)
                 else (last, [Event.linkCall, Event.scanCall])) := by
  unfold maybe_roam
  rw [if_neg hcool]
  have hm : (decide (pyGet bm L.bssid = some L.ssid)) = true := by rw [hmng]; simp
  simp only [hm]
  rfl

theorem maybe_roam_disconnected_eval (ok : String → Option String → Bool)
    (scanSeen : SeenMap) (cfg : RuntimeConfig) (bm : List (String × String))
    (now last : ℚ) (hcool : ¬ (now - last < cfg.roam_cooldown_sec)) :
    maybe_roam ok none scanSeen cfg bm now last =
      (if scanSeen.isEmpty then (last, [Event.linkCall, Event.scanCall])
       else
         match pick_best_non_current scanSeen none with
         | none => (last, [Event.linkCall, Event.scanCall])
         | some best =>
             if (IwClient.connect ok best.ssid (some best.bssid)).1 then
               (now, [Event.linkCall, Event.scanCall] ++ [] ++
                 [Event.connectCall best.ssid (some best.bssid)] ++
                 (IwClient.connect ok best.ssid (some best.bssid)).2)
             else
               (last, [Event.linkCall, Event.scanCall] ++ [] ++
                 [Event.connectCall best.ssid (some best.bssid)] ++
                 (IwClient.connect ok best.ssid (some best.bssid)).2)) := by
  unfold maybe_roam
  rw [if_neg hcool]
  rfl

theorem maybe_roam_unmanaged_eval (ok : String → Option String → Bool) (c : LinkState)
    (scanSeen : SeenMap) (cfg : RuntimeConfig) (bm : List (String × String))
    (now last : ℚ) (hcool : ¬ (now - last < cfg.roam_cooldown_sec))
    (hunm : pyGet bm c.bssid ≠ some c.ssid) :
    maybe_roam ok (some c) scanSeen cfg bm now last =
      (if scanSeen.isEmpty then (last, [Event.linkCall, Event.scanCall])
       else
         match pick_best_non_current scanSeen none with
         | none => (last, [Event.linkCall, Event.scanCall])
         | some best =>
             if (IwClient.connect ok best.ssid (some best.bssid)).1 then
               (now, [Event.linkCall, Event.scanCall] ++ [Event.disconnectCall] ++
                 [Event.connectCall best.ssid (some best.bssid)] ++
                 (IwClient.connect ok best.ssid (some best.bssid)).2)
             else
               (last, [Event.linkCall, Event.scanCall] ++ [Event.disconnectCall] ++
                 [Event.connectCall best.ssid (some best.bssid)] ++
                 (IwClient.connect ok best.ssid (some best.bssid)).2)) := by
  unfold maybe_roam
  rw [if_neg hcool]
  have hm : (decide (pyGet bm c.bssid = some c.ssid)) = false := decide_eq_false hunm
  rw [fill_unmanaged scanSeen c cfg bm hunm]
  simp only [hm]
  rfl

/-- C1: with the device associated to a known tower, the roam decision engine
performs a roam (disconnect and connect) if and only if the current tower's
reconciled observation is present and some other observed tower's signal
strictly exceeds it plus the configured margin (`candidate > current +
margin`); when the threshold is not beaten, or the current tower's
observation is missing, or no other tower is observed, it stays and issues
neither disconnect nor connect calls. -/
theorem c1_roam_iff_margin (ok : String → Option String → Bool) (L : LinkState)
    (scanSeen : SeenMap) (cfg : RuntimeConfig) (bm : List (String × String))
    (now last : ℚ) (hcool : ¬ (now - last < cfg.roam_cooldown_sec))
    (hbm : ∀ p ∈ bm, p.2 ≠ "") (hmng : pyGet bm L.bssid = some L.ssid) :
    (∀ cs, pyGet (maybe_fill_current_from_link scanSeen (some L) cfg bm) L.ssid = some cs →
      ((Event.disconnectCall ∈ (maybe_roam ok (some L) scanSeen cfg bm now last).2 ∧
        ∃ s b, Event.connectCall s b ∈ (maybe_roam ok (some L) scanSeen cfg bm now last).2) ↔
       ∃ p ∈ maybe_fill_current_from_link scanSeen (some L) cfg bm,
         p.2.ssid ≠ L.ssid ∧ p.2.signal_dbm > cs.signal_dbm + cfg.roam_margin_db)) ∧
    (∀ cs, pyGet (maybe_fill_current_from_link scanSeen (some L) cfg bm) L.ssid = some cs →
      ¬ (∃ p ∈ maybe_fill_current_from_link scanSeen (some L) cfg bm,
          p.2.ssid ≠ L.ssid ∧ p.2.signal_dbm > cs.signal_dbm + cfg.roam_margin_db) →
      maybe_roam ok (some L) scanSeen cfg bm now last =
        (last, [Event.linkCall, Event.scanCall])) ∧
    (pyGet (maybe_fill_current_from_link scanSeen (some L) cfg bm) L.ssid = none →
      maybe_roam ok (some L) scanSeen cfg bm now last =
        (last, [Event.linkCall, Event.scanCall])) := by
  have hLne : L.ssid ≠ "" := by
    obtain ⟨p, hpmem, _, hpv⟩ := pyGet_mem bm L.bssid L.ssid hmng
    intro h
    exact hbm p hpmem (hpv.trans h)
  have heval := maybe_roam_managed_eval ok L scanSeen cfg bm now last hcool hmng
  by_cases hie : (maybe_fill_current_from_link scanSeen (some L) cfg bm).isEmpty = true
  · have hstay : maybe_roam ok (some L) scanSeen cfg bm now last =
        (last, [Event.linkCall, Event.scanCall]) := by rw [heval, if_pos hie]
    have hnil : maybe_fill_current_from_link scanSeen (some L) cfg bm = [] := by
      cases hx : maybe_fill_current_from_link scanSeen (some L) cfg bm with
      | nil => rfl
      | cons a l => rw [hx] at hie; exact absurd hie (by simp)
    have hget : pyGet (maybe_fill_current_from_link scanSeen (some L) cfg bm) L.ssid = none := by
      rw [hnil]; rfl
    refine ⟨fun cs hcs => ?_, fun cs hcs _ => ?_, fun _ => hstay⟩
    · rw [hget] at hcs; exact Option.noConfusion hcs
    · rw [hget] at hcs; exact Option.noConfusion hcs
  · cases hp : pick_best_non_current (maybe_fill_current_from_link scanSeen (some L) cfg bm)
        (some L.ssid) with
    | none =>
        have hstay : maybe_roam ok (some L) scanSeen cfg bm now last =
            (last, [Event.linkCall, Event.scanCall]) := by
          rw [heval, if_neg hie, hp]
        have hall : ∀ p ∈ maybe_fill_current_from_link scanSeen (some L) cfg bm,
            p.2.ssid = L.ssid := by
          intro p hpm
          have hp2 := hp
          unfold pick_best_non_current at hp2
          obtain ⟨_, hskip⟩ := pick_fold_none (some L.ssid) _ none hp2
          exact (hskip p hpm).2
        refine ⟨fun cs hcs => ?_, fun cs hcs _ => hstay, fun _ => hstay⟩
        rw [hstay]
        constructor
        · rintro ⟨hd, _⟩
          simp at hd
        · rintro ⟨p, hpm, hne, _⟩
          exact absurd (hall p hpm) hne
    | some best =>
        have hbmem : ∃ p ∈ maybe_fill_current_from_link scanSeen (some L) cfg bm,
            p.2 = best ∧ p.2.ssid ≠ L.ssid := by
          have hp2 := hp
          unfold pick_best_non_current at hp2
          rcases pick_fold_mem (some L.ssid) _ none best hp2 with hacc | ⟨p, hpm, hpb, hskip⟩
          · exact Option.noConfusion hacc
          · refine ⟨p, hpm, hpb, fun he => hskip ⟨?_, he⟩⟩
            simp [ssidTruthy, hLne]
        have hmax : ∀ p ∈ maybe_fill_current_from_link scanSeen (some L) cfg bm,
            p.2.ssid ≠ L.ssid → p.2.signal_dbm ≤ best.signal_dbm := by
          intro p hpm hne
          have hp2 := hp
          unfold pick_best_non_current at hp2
          obtain ⟨_, hrest⟩ := pick_fold_max (some L.ssid) _ none best hp2
          exact hrest p hpm (fun hsk => hne hsk.2)
        cases hcs : pyGet (maybe_fill_current_from_link scanSeen (some L) cfg bm) L.ssid with
        | none =>
            have hstay : maybe_roam ok (some L) scanSeen cfg bm now last =
                (last, [Event.linkCall, Event.scanCall]) := by
              rw [heval, if_neg hie, hp, hcs]
            exact ⟨fun cs hcs' => Option.noConfusion hcs',
              fun cs hcs' _ => Option.noConfusion hcs',
              fun _ => hstay⟩
        | some cur_seen =>
            by_cases hroam : best.ssid ≠ L.ssid ∧
                best.signal_dbm > cur_seen.signal_dbm + cfg.roam_margin_db
            · have hr2 : Event.disconnectCall ∈
                  (maybe_roam ok (some L) scanSeen cfg bm now last).2 ∧
                  ∃ s b, Event.connectCall s b ∈
                    (maybe_roam ok (some L) scanSeen cfg bm now last).2 := by
                by_cases hsucc : (IwClient.connect ok best.ssid (some best.bssid)).1 = true
                · have hr : maybe_roam ok (some L) scanSeen cfg bm now last =
                      (now, [Event.linkCall, Event.scanCall] ++
                        [Event.disconnectCall,
                          Event.connectCall best.ssid (some best.bssid)] ++
                        (IwClient.connect ok best.ssid (some best.bssid)).2) := by
                    rw [heval, if_neg hie, hp, hcs]
                    show (if best.ssid ≠ L.ssid ∧
                        best.signal_dbm > cur_seen.signal_dbm + cfg.roam_margin_db then _ else _) = _
                    rw [if_pos hroam, if_pos hsucc]
                  rw [hr]
                  refine ⟨by simp, best.ssid, some best.bssid, by simp⟩
                · have hr : maybe_roam ok (some L) scanSeen cfg bm now last =
                      (last, [Event.linkCall, Event.scanCall] ++
                        [Event.disconnectCall,
                          Event.connectCall best.ssid (some best.bssid)] ++
                        (IwClient.connect ok best.ssid (some best.bssid)).2 ++
                        [Event.connectCall L.ssid (some L.bssid)] ++
                        (IwClient.connect ok L.ssid (some L.bssid)).2) := by
                    rw [heval, if_neg hie, hp, hcs]
                    show (if best.ssid ≠ L.ssid ∧
                        best.signal_dbm > cur_seen.signal_dbm + cfg.roam_margin_db then _ else _) = _
                    rw [if_pos hroam, if_neg hsucc]
                  rw [hr]
                  refine ⟨by simp, best.ssid, some best.bssid, by simp⟩
              refine ⟨fun cs hcs' => ?_, fun cs hcs' hnoex => ?_,
                fun h => Option.noConfusion h⟩
              · have hcc : cs = cur_seen := (Option.some.inj hcs').symm
                subst hcc
                refine ⟨fun _ => ?_, fun _ => hr2⟩
                obtain ⟨p, hpm, hpb, hpne⟩ := hbmem
                exact ⟨p, hpm, hpne, by rw [hpb]; exact hroam.2⟩
              · exfalso
                have hcc : cs = cur_seen := (Option.some.inj hcs').symm
                subst hcc
                obtain ⟨p, hpm, hpb, hpne⟩ := hbmem
                exact hnoex ⟨p, hpm, hpne, by rw [hpb]; exact hroam.2⟩
            · have hstay : maybe_roam ok (some L) scanSeen cfg bm now last =
                  (last, [Event.linkCall, Event.scanCall]) := by
                rw [heval, if_neg hie, hp, hcs]
                show (if best.ssid ≠ L.ssid ∧
                    best.signal_dbm > cur_seen.signal_dbm + cfg.roam_margin_db then _ else _) = _
                rw [if_neg hroam]
              have hnoex : ¬ (∃ p ∈ maybe_fill_current_from_link scanSeen (some L) cfg bm,
                  p.2.ssid ≠ L.ssid ∧
                    p.2.signal_dbm > cur_seen.signal_dbm + cfg.roam_margin_db) := by
                rintro ⟨p, hpm, hne, hgt⟩
                obtain ⟨pb, hpbm, hpbb, hpbne⟩ := hbmem
                exact hroam ⟨hpbb ▸ hpbne, lt_of_lt_of_le hgt (hmax p hpm hne)⟩
              refine ⟨fun cs hcs' => ?_, fun cs hcs' _ => hstay,
                fun h => Option.noConfusion h⟩
              have hcc : cs = cur_seen := (Option.some.inj hcs').symm
              subst hcc
              rw [hstay]
              constructor
              · rintro ⟨hd, _⟩
                simp at hd
              · intro hex
                exact absurd hex hnoex

/-- Subprocess oracle on which every connect attempt succeeds. -/
def okTrue : String → Option String → Bool := fun _ _ => true

/-- Scan observations of towers A (−71 dBm) and B (−60 dBm), both fresh. -/
def seenAB : SeenMap :=
  [("A", ⟨"A", "aa:aa:aa:aa:aa:aa", -71, some 100, ObsSource.scan⟩),
   ("B", ⟨"B", "bb:bb:bb:bb:bb:bb", -60, some 100, ObsSource.scan⟩)]

/-- Witness for C1: on tower A at −71 dBm with B at −60 dBm and margin −2,
the engine roams (−60 > −73). -/
theorem c1_roam_iff_margin_witness :
    Event.disconnectCall ∈ (maybe_roam okTrue (some linkA) seenAB cfgA bmA 10 0).2 := by
  have h := (c1_roam_iff_margin okTrue linkA seenAB cfgA bmA 10 0 (by norm_num [cfgA])
    (by decide) (by decide)).1
  have hcs : pyGet (maybe_fill_current_from_link seenAB (some linkA) cfgA bmA) linkA.ssid =
      some ⟨"A", "aa:aa:aa:aa:aa:aa", -71, some 100, ObsSource.scan⟩ := by decide
  exact ((h _ hcs).mpr ⟨("B", ⟨"B", "bb:bb:bb:bb:bb:bb", -60, some 100, ObsSource.scan⟩),
    by decide, by decide, by norm_num [cfgA]⟩).1

/-- Observation of tower B alone, for the bootstrap scenario. -/
def seenB : SeenMap := [("B", ⟨"B", "bb:bb:bb:bb:bb:bb", -60, some 100, ObsSource.scan⟩)]

/-- Witness for C2: disconnected bootstrap connects exactly once and a
re-invocation 2 s after the successful connect does nothing. -/
theorem c2_cooldown_skip_and_bootstrap_once_witness :
    (maybe_roam okTrue none seenB cfgA bmA 10 0).1 = 10 ∧
    countConnectCalls (maybe_roam okTrue none seenB cfgA bmA 10 0).2 = 1 ∧
    maybe_roam okTrue none seenB cfgA bmA 12 10 = (10, []) := by
  obtain ⟨h1, h2, h3⟩ := c2_cooldown_skip_and_bootstrap_once.2 okTrue seenB cfgA bmA 10 0
    (by norm_num [cfgA]) (by decide) (fun s b => rfl)
  exact ⟨h1, h2, h3 okTrue none seenB 12 (by norm_num [cfgA])⟩

theorem connect_succ_trace (ok : String → Option String → Bool) (s bb : String)
    (hbb : bb ≠ "") (h1 : ok s (some bb) = true) :
    IwClient.connect ok s (some bb) = (true, [Event.connectProc s (some bb)]) := by
  unfold IwClient.connect
  have hb : (some bb).getD "" ≠ "" := hbb
  rw [if_pos hb, if_pos h1]

theorem connect_fail_trace (ok : String → Option String → Bool) (s bb : String)
    (hbb : bb ≠ "") (h1 : ok s (some bb) = false) :
    IwClient.connect ok s (some bb) =
      (ok s none, [Event.connectProc s (some bb), Event.connectProc s none]) := by
  unfold IwClient.connect
  have hb : (some bb).getD "" ≠ "" := hbb
  rw [if_pos hb, if_neg (by simp [h1])]

theorem connect_false_of (ok : String → Option String → Bool) (s bb : String)
    (h1 : ok s (some bb) = false) (h2 : ok s none = false) :
    (IwClient.connect ok s (some bb)).1 = false := by
  unfold IwClient.connect
  by_cases hb : (some bb).getD "" ≠ ""
  · rw [if_pos hb, if_neg (by simp [h1])]
    exact h2
  · rw [if_neg hb]
    exact h2

/-- C3: a failed connect attempt (address-qualified attempt and identity-only
fallback both failing) never advances `last_roam_time`: the returned value
equals the one passed in, on both the roam and the bootstrap path; on the
roam path a failed connect triggers exactly one recovery reconnect call to
the previous tower's identity and address; and `last_roam_time` is advanced
(necessarily to `now`) only on a successful connect: every invocation returns
either the old value or `now`. -/
theorem c3_connect_failure_recovery :
    (∀ (ok : String → Option String → Bool) (L : LinkState) (scanSeen : SeenMap)
       (cfg : RuntimeConfig) (bm : List (String × String)) (now last : ℚ)
       (best cur_seen : SeenTower),
       ¬ (now - last < cfg.roam_cooldown_sec) →
       pyGet bm L.bssid = some L.ssid →
       pick_best_non_current (maybe_fill_current_from_link scanSeen (some L) cfg bm)
         (some L.ssid) = some best →
       pyGet (maybe_fill_current_from_link scanSeen (some L) cfg bm) L.ssid = some cur_seen →
       ¬ (maybe_fill_current_from_link scanSeen (some L) cfg bm).isEmpty = true →
       best.ssid ≠ L.ssid ∧ best.signal_dbm > cur_seen.signal_dbm + cfg.roam_margin_db →
       best.bssid ≠ "" →
       ((ok best.ssid (some best.bssid) = false ∧ ok best.ssid none = false →
         maybe_roam ok (some L) scanSeen cfg bm now last =
           (last, [Event.linkCall, Event.scanCall] ++
             [Event.disconnectCall, Event.connectCall best.ssid (some best.bssid)] ++
             [Event.connectProc best.ssid (some best.bssid),
              Event.connectProc best.ssid none] ++
             [Event.connectCall L.ssid (some L.bssid)] ++
             (IwClient.connect ok L.ssid (some L.bssid)).2) ∧
         ((maybe_roam ok (some L) scanSeen cfg bm now last).2.filter
           (fun e => decide (e = Event.connectCall L.ssid (some L.bssid)))).length = 1) ∧
        (ok best.ssid (some best.bssid) = true →
         maybe_roam ok (some L) scanSeen cfg bm now last =
           (now, [Event.linkCall, Event.scanCall] ++
             [Event.disconnectCall, Event.connectCall best.ssid (some best.bssid)] ++
             [Event.connectProc best.ssid (some best.bssid)])))) ∧
    (∀ (ok : String → Option String → Bool) (current : Option LinkState)
       (scanSeen : SeenMap) (cfg : RuntimeConfig) (bm : List (String × String))
       (now last : ℚ) (best : SeenTower),
       ¬ (now - last < cfg.roam_cooldown_sec) →
       (current = none ∨ ∃ c, current = some c ∧ pyGet bm c.bssid ≠ some c.ssid) →
       pick_best_non_current scanSeen none = some best →
       ok best.ssid (some best.bssid) = false → ok best.ssid none = false →
       (maybe_roam ok current scanSeen cfg bm now last).1 = last ∧
       countConnectCalls (maybe_roam ok current scanSeen cfg bm now last).2 = 1) ∧
    (∀ (ok : String → Option String → Bool) (current : Option LinkState)
       (scanSeen : SeenMap) (cfg : RuntimeConfig) (bm : List (String × String))
       (now last : ℚ),
       (maybe_roam ok current scanSeen cfg bm now last).1 = last ∨
       (maybe_roam ok current scanSeen cfg bm now last).1 = now) := by
  refine ⟨?_, ?_, ?_⟩
  · intro ok L scanSeen cfg bm now last best cur_seen hcool hmng hpick hcs hie hroam hbb
    have heval := maybe_roam_managed_eval ok L scanSeen cfg bm now last hcool hmng
    constructor
    · rintro ⟨hf1, hf2⟩
      have hcf : (IwClient.connect ok best.ssid (some best.bssid)).1 = false :=
        connect_false_of ok best.ssid best.bssid hf1 hf2
      have htr : maybe_roam ok (some L) scanSeen cfg bm now last =
          (last, [Event.linkCall, Event.scanCall] ++
            [Event.disconnectCall, Event.connectCall best.ssid (some best.bssid)] ++
            [Event.connectProc best.ssid (some best.bssid),
             Event.connectProc best.ssid none] ++
            [Event.connectCall L.ssid (some L.bssid)] ++
            (IwClient.connect ok L.ssid (some L.bssid)).2) := by
        rw [heval, if_neg hie, hpick, hcs]
        show (if best.ssid ≠ L.ssid ∧
            best.signal_dbm > cur_seen.signal_dbm + cfg.roam_margin_db then _ else _) = _
        rw [if_pos hroam, if_neg (by simp [hcf]),
          connect_fail_trace ok best.ssid best.bssid hbb hf1]
      refine ⟨htr, ?_⟩
      rw [htr]
      have hrec : ((IwClient.connect ok L.ssid (some L.bssid)).2.filter
          (fun e => decide (e = Event.connectCall L.ssid (some L.bssid)))).length = 0 := by
        rw [List.length_eq_zero]
        apply List.filter_eq_nil_iff.mpr
        intro e he
        simp only [decide_eq_true_eq]
        unfold IwClient.connect at he
        by_cases hb : (some L.bssid).getD "" ≠ ""
        · rw [if_pos hb] at he
          by_cases hok3 : ok L.ssid (some L.bssid) = true
          · rw [if_pos hok3] at he
            simp at he
            subst he
            exact fun h => Event.noConfusion h
          · rw [if_neg hok3] at he
            simp at he
            rcases he with he | he <;> (subst he; exact fun h => Event.noConfusion h)
        · rw [if_neg hb] at he
          simp at he
          subst he
          exact fun h => Event.noConfusion h
      rw [List.filter_append, List.filter_append, List.filter_append, List.filter_append,
        List.length_append, List.length_append, List.length_append, List.length_append, hrec]
      simp [hroam.1]
    · intro hsucc
      rw [heval, if_neg hie, hpick, hcs]
      show (if best.ssid ≠ L.ssid ∧
          best.signal_dbm > cur_seen.signal_dbm + cfg.roam_margin_db then _ else _) = _
      rw [if_pos hroam, connect_succ_trace ok best.ssid best.bssid hbb hsucc]
      rfl
  · intro ok current scanSeen cfg bm now last best hcool hunm hpick hf1 hf2
    have hcf : (IwClient.connect ok best.ssid (some best.bssid)).1 = false :=
      connect_false_of ok best.ssid best.bssid hf1 hf2
    have hne : scanSeen ≠ [] := by
      intro h
      subst h
      exact Option.noConfusion hpick
    have hie : scanSeen.isEmpty = false := by
      cases scanSeen with
      | nil => exact absurd rfl hne
      | cons a l => rfl
    have hnc : countConnectCalls (IwClient.connect ok best.ssid (some best.bssid)).2 = 0 :=
      connect_no_calls ok best.ssid (some best.bssid)
    rcases hunm with hnone | ⟨c, hc, hcm⟩
    · subst hnone
      have htr := maybe_roam_disconnected_eval ok scanSeen cfg bm now last hcool
      simp only [hie, Bool.false_eq_true, if_false, hpick, hcf] at htr
      rw [htr]
      refine ⟨rfl, ?_⟩
      rw [countConnectCalls_append, countConnectCalls_append, countConnectCalls_append, hnc]
      rfl
    · subst hc
      have htr := maybe_roam_unmanaged_eval ok c scanSeen cfg bm now last hcool hcm
      simp only [hie, Bool.false_eq_true, if_false, hpick, hcf] at htr
      rw [htr]
      refine ⟨rfl, ?_⟩
      rw [countConnectCalls_append, countConnectCalls_append, countConnectCalls_append, hnc]
      rfl
  · intro ok current scanSeen cfg bm now last
    by_cases hcool : now - last < cfg.roam_cooldown_sec
    · left
      unfold maybe_roam
      rw [if_pos hcool]
    · cases current with
      | none =>
          rw [maybe_roam_disconnected_eval ok scanSeen cfg bm now last hcool]
          repeat (first | (left; rfl) | (right; rfl) | split)
      | some c =>
          by_cases hm : pyGet bm c.bssid = some c.ssid
          · rw [maybe_roam_managed_eval ok c scanSeen cfg bm now last hcool hm]
            repeat (first | (left; rfl) | (right; rfl) | split)
          · rw [maybe_roam_unmanaged_eval ok c scanSeen cfg bm now last hcool hm]
            repeat (first | (left; rfl) | (right; rfl) | split)

/-- Subprocess oracle on which every connect attempt fails. -/
def okFalse : String → Option String → Bool := fun _ _ => false

/-- Witness for C3: a disconnected bootstrap whose connect fails (both
attempts) leaves `last_roam_time` at 0 and makes exactly one connect call. -/
theorem c3_connect_failure_recovery_witness :
    (maybe_roam okFalse none seenB cfgA bmA 10 0).1 = 0 ∧
    countConnectCalls (maybe_roam okFalse none seenB cfgA bmA 10 0).2 = 1 :=
  c3_connect_failure_recovery.2.1 okFalse none seenB cfgA bmA 10 0
    ⟨"B", "bb:bb:bb:bb:bb:bb", -60, some 100, ObsSource.scan⟩
    (by norm_num [cfgA]) (Or.inl rfl) (by decide) rfl rfl

/-- C10: the indicator's known-tower branch keys on ssid alone, while the
roam engine's managed check keys on the registry's address mapping: a link
whose ssid matches a configured tower but whose address does not map to that
ssid is rendered with the tower's color and signal-derived level, yet the
same cycle's roam step classifies the association as unmanaged and takes the
bootstrap path (disconnect, then connect to the strongest observed tower). -/
theorem c10_spoofed_ssid_renders_but_bootstraps (cfg : RuntimeConfig)
    (towers : List (String × Tower)) (ok : String → Option String → Bool)
    (L : LinkState) (T : Tower) (best : SeenTower) (scanSeen : SeenMap)
    (bm : List (String × String)) (now lsc now' last : ℚ)
    (htower : pyGet towers L.ssid = some T)
    (hspoof : pyGet bm L.bssid ≠ some L.ssid)
    (hcool : ¬ (now' - last < cfg.roam_cooldown_sec))
    (hpick : pick_best_non_current scanSeen none = some best)
    (hbb : best.bssid ≠ "") (hok : ok best.ssid (some best.bssid) = true) :
    (indicator_step cfg towers now lsc (some L) none).2.2 =
      [RenderEvent.renderTower T.color (signal_to_led_count L.signal_dbm cfg)] ∧
    maybe_roam ok (some L) scanSeen cfg bm now' last =
      (now', [Event.linkCall, Event.scanCall] ++ [Event.disconnectCall] ++
        [Event.connectCall best.ssid (some best.bssid)] ++
        [Event.connectProc best.ssid (some best.bssid)]) := by
  constructor
  · unfold indicator_step
    simp only [htower]
    rw [if_pos (show some (VisualKey.tower T.ssid (signal_to_led_count L.signal_dbm cfg)) ≠
      none from fun h => Option.noConfusion h)]
  · have hne : scanSeen ≠ [] := by
      intro h
      subst h
      exact Option.noConfusion hpick
    have hie : scanSeen.isEmpty = false := by
      cases scanSeen with
      | nil => exact absurd rfl hne
      | cons a l => rfl
    have htr := maybe_roam_unmanaged_eval ok L scanSeen cfg bm now' last hcool hspoof
    simp only [hie, Bool.false_eq_true, if_false, hpick,
      connect_succ_trace ok best.ssid best.bssid hbb hok] at htr
    exact htr

theorem indicator_step_none_eq (cfg : RuntimeConfig) (towers : List (String × Tower))
    (now lsc : ℚ) (k : Option VisualKey) :
    indicator_step cfg towers now lsc none k =
      (if now - lsc ≥ cfg.disconnect_grace_sec then
        (if some (VisualKey.unknown cfg.unknown_mode) ≠ k then
          (some (VisualKey.unknown cfg.unknown_mode), lsc, [RenderEvent.renderUnknown])
        else (k, lsc, []))
      else (k, lsc, [])) := rfl

theorem indicator_step_unknown_eq (cfg : RuntimeConfig) (towers : List (String × Tower))
    (now lsc : ℚ) (l : LinkState) (k : Option VisualKey)
    (ht : pyGet towers l.ssid = none) :
    indicator_step cfg towers now lsc (some l) k =
      (if some (VisualKey.unknownSsid l.ssid) ≠ k then
        (some (VisualKey.unknownSsid l.ssid), now, [RenderEvent.renderUnknown])
      else (k, now, [])) := by
  show (match pyGet towers l.ssid with
    | none =>
        if some (VisualKey.unknownSsid l.ssid) ≠ k then
          (some (VisualKey.unknownSsid l.ssid), now, [RenderEvent.renderUnknown])
        else (k, now, [])
    | some t =>
        if some (VisualKey.tower t.ssid (signal_to_led_count l.signal_dbm cfg)) ≠ k then
          (some (VisualKey.tower t.ssid (signal_to_led_count l.signal_dbm cfg)), now,
            [RenderEvent.renderTower t.color (signal_to_led_count l.signal_dbm cfg)])
        else (k, now, [])) = _
  rw [ht]

theorem indicator_step_tower_eq (cfg : RuntimeConfig) (towers : List (String × Tower))
    (now lsc : ℚ) (l : LinkState) (t : Tower) (k : Option VisualKey)
    (ht : pyGet towers l.ssid = some t) :
    indicator_step cfg towers now lsc (some l) k =
      (if some (VisualKey.tower t.ssid (signal_to_led_count l.signal_dbm cfg)) ≠ k then
        (some (VisualKey.tower t.ssid (signal_to_led_count l.signal_dbm cfg)), now,
          [RenderEvent.renderTower t.color (signal_to_led_count l.signal_dbm cfg)])
      else (k, now, [])) := by
  show (match pyGet towers l.ssid with
    | none =>
        if some (VisualKey.unknownSsid l.ssid) ≠ k then
          (some (VisualKey.unknownSsid l.ssid), now, [RenderEvent.renderUnknown])
        else (k, now, [])
    | some t =>
        if some (VisualKey.tower t.ssid (signal_to_led_count l.signal_dbm cfg)) ≠ k then
          (some (VisualKey.tower t.ssid (signal_to_led_count l.signal_dbm cfg)), now,
            [RenderEvent.renderTower t.color (signal_to_led_count l.signal_dbm cfg)])
        else (k, now, [])) = _
  rw [ht]

theorem visual_key_of_none_eq (cfg : RuntimeConfig) (towers : List (String × Tower))
    (now lsc : ℚ) :
    visual_key_of cfg towers now lsc none =
      (if now - lsc ≥ cfg.disconnect_grace_sec then
        some (VisualKey.unknown cfg.unknown_mode) else none) := rfl

theorem visual_key_of_unknown_eq (cfg : RuntimeConfig) (towers : List (String × Tower))
    (now lsc : ℚ) (l : LinkState) (ht : pyGet towers l.ssid = none) :
    visual_key_of cfg towers now lsc (some l) = some (VisualKey.unknownSsid l.ssid) := by
  show (match pyGet towers l.ssid with
    | none => some (VisualKey.unknownSsid l.ssid)
    | some t => some (VisualKey.tower t.ssid (signal_to_led_count l.signal_dbm cfg))) = _
  rw [ht]

theorem visual_key_of_tower_eq (cfg : RuntimeConfig) (towers : List (String × Tower))
    (now lsc : ℚ) (l : LinkState) (t : Tower) (ht : pyGet towers l.ssid = some t) :
    visual_key_of cfg towers now lsc (some l) =
      some (VisualKey.tower t.ssid (signal_to_led_count l.signal_dbm cfg)) := by
  show (match pyGet towers l.ssid with
    | none => some (VisualKey.unknownSsid l.ssid)
    | some t => some (VisualKey.tower t.ssid (signal_to_led_count l.signal_dbm cfg))) = _
  rw [ht]

theorem indicator_applied_key (cfg : RuntimeConfig) (towers : List (String × Tower))
    (now lsc : ℚ) (link : Option LinkState) (k : Option VisualKey) :
    (indicator_step cfg towers now lsc link k).1 =
      match visual_key_of cfg towers now lsc link with
      | none => k
      | some vk => some vk := by
  cases link with
  | none =>
      rw [indicator_step_none_eq, visual_key_of_none_eq]
      by_cases hg : now - lsc ≥ cfg.disconnect_grace_sec
      · rw [if_pos hg, if_pos hg]
        by_cases hk : some (VisualKey.unknown cfg.unknown_mode) ≠ k
        · rw [if_pos hk]
        · rw [if_neg hk]
          exact (not_not.mp hk).symm
      · rw [if_neg hg, if_neg hg]
  | some l =>
      cases ht : pyGet towers l.ssid with
      | none =>
          rw [indicator_step_unknown_eq cfg towers now lsc l k ht,
            visual_key_of_unknown_eq cfg towers now lsc l ht]
          by_cases hk : some (VisualKey.unknownSsid l.ssid) ≠ k
          · rw [if_pos hk]
          · rw [if_neg hk]
            exact (not_not.mp hk).symm
      | some t =>
          rw [indicator_step_tower_eq cfg towers now lsc l t k ht,
            visual_key_of_tower_eq cfg towers now lsc l t ht]
          by_cases hk : some (VisualKey.tower t.ssid (signal_to_led_count l.signal_dbm cfg)) ≠ k
          · rw [if_pos hk]
          · rw [if_neg hk]
            exact (not_not.mp hk).symm

theorem indicator_norender_same (cfg : RuntimeConfig) (towers : List (String × Tower))
    (now lsc : ℚ) (link : Option LinkState) (k : Option VisualKey)
    (h : visual_key_of cfg towers now lsc link = none ∨
         visual_key_of cfg towers now lsc link = k) :
    (indicator_step cfg towers now lsc link k).2.2 = [] ∧
    (indicator_step cfg towers now lsc link k).1 = k := by
  cases link with
  | none =>
      rw [indicator_step_none_eq]
      rw [visual_key_of_none_eq] at h
      by_cases hg : now - lsc ≥ cfg.disconnect_grace_sec
      · rw [if_pos hg] at h
        rcases h with h | h
        · exact Option.noConfusion h
        · rw [if_pos hg, if_neg (not_not.mpr h)]
          exact ⟨rfl, rfl⟩
      · rw [if_neg hg]
        exact ⟨rfl, rfl⟩
  | some l =>
      cases ht : pyGet towers l.ssid with
      | none =>
          rw [indicator_step_unknown_eq cfg towers now lsc l k ht]
          rw [visual_key_of_unknown_eq cfg towers now lsc l ht] at h
          rcases h with h | h
          · exact Option.noConfusion h
          · rw [if_neg (not_not.mpr h)]
            exact ⟨rfl, rfl⟩
      | some t =>
          rw [indicator_step_tower_eq cfg towers now lsc l t k ht]
          rw [visual_key_of_tower_eq cfg towers now lsc l t ht] at h
          rcases h with h | h
          · exact Option.noConfusion h
          · rw [if_neg (not_not.mpr h)]
            exact ⟨rfl, rfl⟩

theorem indicator_link_some_count (cfg : RuntimeConfig) (towers : List (String × Tower))
    (now lsc : ℚ) (L : LinkState) (k : Option VisualKey) :
    ((indicator_step cfg towers now lsc (some L) k).2.2).length =
      (if visual_key_of cfg towers now lsc (some L) = k then 0 else 1) := by
  cases ht : pyGet towers L.ssid with
  | none =>
      rw [indicator_step_unknown_eq cfg towers now lsc L k ht,
        visual_key_of_unknown_eq cfg towers now lsc L ht]
      by_cases hk : some (VisualKey.unknownSsid L.ssid) ≠ k
      · rw [if_pos hk, if_neg hk]
        rfl
      · rw [if_neg hk, if_pos (not_not.mp hk)]
        rfl
  | some t =>
      rw [indicator_step_tower_eq cfg towers now lsc L t k ht,
        visual_key_of_tower_eq cfg towers now lsc L t ht]
      by_cases hk : some (VisualKey.tower t.ssid (signal_to_led_count L.signal_dbm cfg)) ≠ k
      · rw [if_pos hk, if_neg hk]
        rfl
      · rw [if_neg hk, if_pos (not_not.mp hk)]
        rfl

/-- C7: the indicator is deduplicated by value: a cycle that derives the same
visual key as the previous cycle performs no hardware write and no render log
line, and running the indicator step twice with an identical (associated)
link state from the daemon's initial state yields exactly one hardware
render. -/
theorem c7_indicator_dedup :
    (∀ (cfg : RuntimeConfig) (towers : List (String × Tower)) (now1 now2 lsc : ℚ)
       (link1 link2 : Option LinkState) (k0 : Option VisualKey),
      visual_key_of cfg towers now2 (indicator_step cfg towers now1 lsc link1 k0).2.1 link2 =
        visual_key_of cfg towers now1 lsc link1 →
      (indicator_step cfg towers now2 (indicator_step cfg towers now1 lsc link1 k0).2.1 link2
        (indicator_step cfg towers now1 lsc link1 k0).1).2.2 = [] ∧
      (indicator_step cfg towers now2 (indicator_step cfg towers now1 lsc link1 k0).2.1 link2
        (indicator_step cfg towers now1 lsc link1 k0).1).1 =
        (indicator_step cfg towers now1 lsc link1 k0).1) ∧
    (∀ (cfg : RuntimeConfig) (towers : List (String × Tower)) (now1 now2 lsc : ℚ)
       (L : LinkState),
      ((indicator_step cfg towers now1 lsc (some L) none).2.2).length +
      ((indicator_step cfg towers now2
        (indicator_step cfg towers now1 lsc (some L) none).2.1 (some L)
        (indicator_step cfg towers now1 lsc (some L) none).1).2.2).length = 1) := by
  constructor
  · intro cfg towers now1 now2 lsc link1 link2 k0 h
    apply indicator_norender_same
    cases hd : visual_key_of cfg towers now1 lsc link1 with
    | none =>
        left
        rw [h, hd]
    | some vk =>
        right
        rw [h, hd]
        have hk1 : (indicator_step cfg towers now1 lsc link1 k0).1 = some vk := by
          rw [indicator_applied_key cfg towers now1 lsc link1 k0, hd]
        rw [hk1]
  · intro cfg towers now1 now2 lsc L
    obtain ⟨vk, hvk⟩ : ∃ vk, visual_key_of cfg towers now1 lsc (some L) = some vk := by
      cases ht : pyGet towers L.ssid with
      | none => exact ⟨_, visual_key_of_unknown_eq cfg towers now1 lsc L ht⟩
      | some t => exact ⟨_, visual_key_of_tower_eq cfg towers now1 lsc L t ht⟩
    have h1 : ((indicator_step cfg towers now1 lsc (some L) none).2.2).length = 1 := by
      rw [indicator_link_some_count cfg towers now1 lsc L none, hvk,
        if_neg (fun h => Option.noConfusion h)]
    have hk1 : (indicator_step cfg towers now1 lsc (some L) none).1 = some vk := by
      rw [indicator_applied_key cfg towers now1 lsc (some L) none, hvk]
    have hd2 : visual_key_of cfg towers now2
        (indicator_step cfg towers now1 lsc (some L) none).2.1 (some L) = some vk := hvk
    have h2 : ((indicator_step cfg towers now2
        (indicator_step cfg towers now1 lsc (some L) none).2.1 (some L)
        (indicator_step cfg towers now1 lsc (some L) none).1).2.2).length = 0 := by
      rw [indicator_link_some_count, hd2, hk1, if_pos rfl]
    rw [h1, h2]

/-- Registry with tower A only. -/
def towersA : List (String × Tower) := [("A", ⟨"A", "aa:aa:aa:aa:aa:aa", (1, 0, 0), 2412⟩)]

/-- Witness for C7: a second cycle with the identical link renders nothing. -/
theorem c7_indicator_dedup_witness :
    (indicator_step cfgA towersA 2 (indicator_step cfgA towersA 1 0 (some linkA) none).2.1
      (some linkA) (indicator_step cfgA towersA 1 0 (some linkA) none).1).2.2 = [] :=
  (c7_indicator_dedup.1 cfgA towersA 1 2 0 (some linkA) (some linkA) none rfl).1

/-- A link whose ssid is tower A's but whose address is not A's registered
address. -/
def linkSpoof : LinkState := ⟨"A", "cc:cc:cc:cc:cc:cc", some (-70)⟩

/-- Witness for C10: the spoofed-ssid association renders as tower A while
the roam step disconnects and bootstraps to tower B. -/
theorem c10_spoofed_ssid_renders_but_bootstraps_witness :
    (indicator_step cfgA towersA 5 0 (some linkSpoof) none).2.2 =
      [RenderEvent.renderTower (1, 0, 0) (signal_to_led_count (some (-70)) cfgA)] ∧
    maybe_roam okTrue (some linkSpoof) seenB cfgA bmA 10 0 =
      (10, [Event.linkCall, Event.scanCall] ++ [Event.disconnectCall] ++
        [Event.connectCall "B" (some "bb:bb:bb:bb:bb:bb")] ++
        [Event.connectProc "B" (some "bb:bb:bb:bb:bb:bb")]) :=
  c10_spoofed_ssid_renders_but_bootstraps cfgA towersA okTrue linkSpoof
    ⟨"A", "aa:aa:aa:aa:aa:aa", (1, 0, 0), 2412⟩
    ⟨"B", "bb:bb:bb:bb:bb:bb", -60, some 100, ObsSource.scan⟩
    seenB bmA 5 0 10 0 (by decide) (by decide) (by norm_num [cfgA]) (by decide) (by decide) rfl

theorem charOfNat_toNat (n : ℕ) (h : n.isValidChar) : (Char.ofNat n).toNat = n := by
  unfold Char.ofNat
  rw [dif_pos h]
  rfl

theorem toLower_class (c : Char) (h : isHexColonCI c = true) :
    isHexLower c.toLower = true ∨ c.toLower = ':' := by
  have hl : ∀ x : Char, x.isDigit = true ∨ ('a' ≤ x ∧ x ≤ 'f') → isHexLower x = true := by
    intro x hx
    rcases hx with hx | hx
    · simp [isHexLower, hx]
    · simp [isHexLower, hx.1, hx.2]
  unfold isHexColonCI at h
  simp only [Bool.or_eq_true, Bool.and_eq_true, decide_eq_true_eq] at h
  rcases h with ((hd | ⟨h1, h2⟩) | ⟨h1, h2⟩) | hc
  · have hn2 : c.toNat ≤ 57 := by
      have : c ≤ '9' := by
        have := hd
        unfold Char.isDigit at this
        simp only [Bool.and_eq_true, decide_eq_true_eq] at this
        exact this.2
      exact this
    have hlow : c.toLower = c := by
      unfold Char.toLower
      rw [if_neg (by omega)]
    rw [hlow]
    exact Or.inl (hl c (Or.inl hd))
  · have hn1 : 97 ≤ c.toNat := h1
    have hlow : c.toLower = c := by
      unfold Char.toLower
      rw [if_neg (by omega)]
    rw [hlow]
    exact Or.inl (hl c (Or.inr ⟨h1, h2⟩))
  · have hn1 : 65 ≤ c.toNat := h1
    have hn2 : c.toNat ≤ 70 := h2
    have hv : (c.toNat + 32).isValidChar := Or.inl (by omega)
    have hlow : c.toLower = Char.ofNat (c.toNat + 32) := by
      unfold Char.toLower
      rw [if_pos ⟨by omega, by omega⟩]
    rw [hlow]
    refine Or.inl (hl _ (Or.inr ⟨?_, ?_⟩))
    · show (97 : ℕ) ≤ (Char.ofNat (c.toNat + 32)).toNat
      rw [charOfNat_toNat _ hv]
      omega
    · show (Char.ofNat (c.toNat + 32)).toNat ≤ 102
      rw [charOfNat_toNat _ hv]
      omega
  · subst hc
    exact Or.inr rfl

theorem takeClass_spec (cls : Char → Bool) :
    ∀ (n : ℕ) (cs g r : List Char), takeClass cls n cs = some (g, r) →
      g.length = n ∧ ∀ c ∈ g, cls c = true := by
  intro n
  induction n with
  | zero =>
      intro cs g r h
      unfold takeClass at h
      obtain ⟨h1, _⟩ := Prod.mk.injEq .. ▸ Option.some.inj h
      subst h1
      exact ⟨rfl, fun c hc => absurd hc (List.not_mem_nil c)⟩
  | succ n ih =>
      intro cs g r h
      cases cs with
      | nil => exact Option.noConfusion h
      | cons c cs =>
          unfold takeClass at h
          by_cases hc : cls c = true
          · rw [if_pos hc] at h
            cases ht : takeClass cls n cs with
            | none => rw [ht] at h; exact Option.noConfusion h
            | some p =>
                rw [ht] at h
                simp only [Option.map_some'] at h
                obtain ⟨h1, _⟩ := Prod.mk.injEq .. ▸ Option.some.inj h
                subst h1
                obtain ⟨hl, hall⟩ := ih cs p.1 p.2 (by rw [ht])
                refine ⟨by simp [hl], fun x hx => ?_⟩
                rcases List.mem_cons.mp hx with hx | hx
                · subst hx; exact hc
                · exact hall x hx
          · rw [if_neg hc] at h
            exact Option.noConfusion h

theorem reSearch_some (m : List Char → Option α) :
    ∀ (cs : List Char) (v : α), reSearch m cs = some v → ∃ cs', m cs' = some v := by
  intro cs
  induction cs with
  | nil => intro v h; exact ⟨[], h⟩
  | cons c cs ih =>
      intro v h
      unfold reSearch at h
      cases hm : m (c :: cs) with
      | some r => rw [hm] at h; exact ⟨c :: cs, hm.trans h⟩
      | none => rw [hm] at h; exact ih v h

theorem linkBssidAt_spec (cs : List Char) (b : String) (h : linkBssidAt cs = some b) :
    b.data.length = 17 ∧ ∀ c ∈ b.data, isHexColonCI c = true := by
  unfold linkBssidAt at h
  cases hm : matchLitCI "connected to ".data cs with
  | none => rw [hm] at h; exact Option.noConfusion h
  | some r1 =>
      rw [hm] at h
      have h2 : (match takeClass isHexColonCI 17 r1 with
          | none => none
          | some (g, _) => some (String.mk g) : Option String) = some b := h
      cases ht : takeClass isHexColonCI 17 r1 with
      | none => rw [ht] at h2; exact Option.noConfusion h2
      | some p =>
          rw [ht] at h2
          cases p with
          | mk g r =>
              have hb : b = String.mk g := (Option.some.inj h2).symm
              subst hb
              exact takeClass_spec isHexColonCI 17 r1 g r (by rw [ht])

theorem lowerStr_bssid_spec (b : String) (hlen : b.data.length = 17)
    (hcls : ∀ c ∈ b.data, isHexColonCI c = true) :
    (lowerStr b).data.length = 17 ∧
    ∀ c ∈ (lowerStr b).data, isHexLower c = true ∨ c = ':' := by
  constructor
  · show (b.data.map Char.toLower).length = 17
    rw [List.length_map]
    exact hlen
  · intro c hc
    obtain ⟨c', hc', hcc⟩ := List.mem_map.mp hc
    subst hcc
    exact toLower_class c' (hcls c' hc')

/-- C8 counterexample: the link reader accepts 17 hex characters without
colons as an address (not the canonical 6-octet colon-hex form), and a
matching but unparsable signal field makes it raise instead of returning a
link state. -/
theorem c8_link_reader_counterexample :
    IwClient.link "Connected to 0123456789abcdef0 (on wlan0)\nSSID: mynet" =
      Except.ok (some ⟨"mynet", "0123456789abcdef0", none⟩) ∧
    BSSID_RE_fullmatch "0123456789abcdef0" = false ∧
    IwClient.link "Connected to aa:bb:cc:dd:ee:ff (on wlan0)\nSSID: mynet\nsignal: -dBm" =
      Except.error () := by
  refine ⟨?_, by decide, ?_⟩ <;> rfl

/-- C8 (amended): the link reader returns no-association when the text
signals not connected or when the hardware address or display identity
cannot be extracted; otherwise, when it returns a link state, the address is
the lowercased 17-character hex/colon match (not validated against the
canonical 6-octet form) and the signal field is absent exactly when no
signal line matches (an unparsable matched signal group raises instead). -/
theorem c8_link_reader_amended (out : String) :
    (containsSub out "Not connected." = true → IwClient.link out = Except.ok none) ∧
    ((linkBssidMatch out = none ∨ linkSsidMatch out = none) →
      IwClient.link out = Except.ok none) ∧
    (∀ ls, IwClient.link out = Except.ok (some ls) →
      ls.bssid.data.length = 17 ∧
      (∀ c ∈ ls.bssid.data, isHexLower c = true ∨ c = ':') ∧
      (ls.signal_dbm = none ↔ linkSignalMatch out = none)) := by
  by_cases hnc : containsSub out "Not connected." = true
  · have hres : IwClient.link out = Except.ok none := by
      unfold IwClient.link
      rw [if_pos hnc]
    exact ⟨fun _ => hres, fun _ => hres,
      fun ls h => absurd (hres ▸ h) (fun hh => Option.noConfusion (Except.ok.inj hh))⟩
  · refine ⟨fun h => absurd h hnc, ?_, ?_⟩
    · intro h
      unfold IwClient.link
      rw [if_neg hnc]
      cases hb : linkBssidMatch out with
      | none => rfl
      | some b =>
          cases hs : linkSsidMatch out with
          | none => rfl
          | some s =>
              rcases h with h | h
              · rw [hb] at h; exact Option.noConfusion h
              · rw [hs] at h; exact Option.noConfusion h
    · intro ls hls
      unfold IwClient.link at hls
      rw [if_neg hnc] at hls
      cases hb : linkBssidMatch out with
      | none =>
          rw [hb] at hls
          cases hs : linkSsidMatch out with
          | none =>
              rw [hs] at hls
              have hx : (Except.ok none : Except Unit (Option LinkState)) =
                  Except.ok (some ls) := hls
              exact absurd (Except.ok.inj hx) (fun hh => Option.noConfusion hh)
          | some s =>
              rw [hs] at hls
              have hx : (Except.ok none : Except Unit (Option LinkState)) =
                  Except.ok (some ls) := hls
              exact absurd (Except.ok.inj hx) (fun hh => Option.noConfusion hh)
      | some b =>
          rw [hb] at hls
          cases hs : linkSsidMatch out with
          | none =>
              rw [hs] at hls
              have hx : (Except.ok none : Except Unit (Option LinkState)) =
                  Except.ok (some ls) := hls
              exact absurd (Except.ok.inj hx) (fun hh => Option.noConfusion hh)
          | some s =>
              rw [hs] at hls
              obtain ⟨cs', hat⟩ := reSearch_some linkBssidAt out.data b hb
              obtain ⟨hlen, hcls⟩ := linkBssidAt_spec cs' b hat
              obtain ⟨hlen', hcls'⟩ := lowerStr_bssid_spec b hlen hcls
              cases hsig : linkSignalMatch out with
              | none =>
                  rw [hsig] at hls
                  have hx : (Except.ok (some (⟨pyStrip s, lowerStr b, none⟩ : LinkState)) :
                      Except Unit (Option LinkState)) = Except.ok (some ls) := hls
                  have hl : ls = ⟨pyStrip s, lowerStr b, none⟩ :=
                    (Option.some.inj (Except.ok.inj hx)).symm
                  subst hl
                  exact ⟨hlen', hcls', by simp⟩
              | some g =>
                  rw [hsig] at hls
                  have hls2 : (match parseFloat g with
                      | some q => Except.ok (some (⟨pyStrip s, lowerStr b, some q⟩ : LinkState))
                      | none => (Except.error () : Except Unit (Option LinkState))) =
                      Except.ok (some ls) := hls
                  cases hq : parseFloat g with
                  | none =>
                      rw [hq] at hls2
                      exact Except.noConfusion hls2
                  | some q =>
                      rw [hq] at hls2
                      have hl : ls = ⟨pyStrip s, lowerStr b, some q⟩ :=
                        (Option.some.inj (Except.ok.inj hls2)).symm
                      subst hl
                      constructor
                      · exact hlen'
                      · refine ⟨hcls', ?_⟩
                        constructor
                        · intro h; exact Option.noConfusion h
                        · intro h; exact Option.noConfusion h

/-- Witness for C8 (amended) at concrete link outputs. -/
theorem c8_link_reader_amended_witness :
    IwClient.link "wlan0 Not connected. (details)" = Except.ok none ∧
    (("0123456789abcdef0" : String).data.length = 17 ∧
      ∀ c ∈ ("0123456789abcdef0" : String).data, isHexLower c = true ∨ c = ':') := by
  constructor
  · exact (c8_link_reader_amended "wlan0 Not connected. (details)").1 (by decide)
  · have h := (c8_link_reader_amended
      "Connected to 0123456789abcdef0 (on wlan0)\nSSID: mynet").2.2
      ⟨"mynet", "0123456789abcdef0", none⟩ (by rfl)
    exact ⟨h.1, h.2.1⟩

/-- Tower registry JSON in which towers A and B declare the same bssid. -/
def rawDup : List (String × JsonVal) :=
  [("A", JsonVal.jobj [("color", JsonVal.jarr [JsonVal.jnum 1, JsonVal.jnum 0, JsonVal.jnum 0]),
                       ("freq", JsonVal.jnum 2412),
                       ("bssid", JsonVal.jstr "aa:aa:aa:aa:aa:aa")]),
   ("B", JsonVal.jobj [("color", JsonVal.jarr [JsonVal.jnum 0, JsonVal.jnum 1, JsonVal.jnum 0]),
                       ("freq", JsonVal.jnum 2437),
                       ("bssid", JsonVal.jstr "aa:aa:aa:aa:aa:aa")])]

/-- C6 (violated by the code): `load_tower_config` accepts a registry whose
towers share a bssid; both towers load, and the reverse index maps the shared
address only to the last one, so tower A's address does not map back to A. -/
theorem c6_duplicate_bssid_accepted :
    load_tower_config rawDup =
      Except.ok ([("A", ⟨"A", "aa:aa:aa:aa:aa:aa", (1, 0, 0), 2412⟩),
                  ("B", ⟨"B", "aa:aa:aa:aa:aa:aa", (0, 1, 0), 2437⟩)],
                 [("aa:aa:aa:aa:aa:aa", "B")], [2412, 2437]) ∧
    (⟨"A", "aa:aa:aa:aa:aa:aa", (1, 0, 0), 2412⟩ : Tower).bssid =
      (⟨"B", "aa:aa:aa:aa:aa:aa", (0, 1, 0), 2437⟩ : Tower).bssid ∧
    pyGet [("aa:aa:aa:aa:aa:aa", "B")]
      (⟨"A", "aa:aa:aa:aa:aa:aa", (1, 0, 0), 2412⟩ : Tower).bssid = some "B" ∧
    ("B" : String) ≠ "A" := by
  refine ⟨by rfl, rfl, by decide, by decide⟩

/-! ### C4: block-level characterization of the scan parser -/

/-- Split the lines after an opening `BSS` line into blocks: the head block is
the one currently open (for address `b`), each further `BSS` line opens a new
block tagged with its lowercased matched address. -/
def scanBlocksAux : String → List String → List (String × List String)
  | b, [] => [(b, [])]
  | b, l :: ls =>
      match scanBssMatch l with
      | some g => (b, []) :: scanBlocksAux (lowerStr g) ls
      | none =>
          match scanBlocksAux b ls with
          | [] => [(b, [l])]
          | (b2, blk) :: rest => (b2, l :: blk) :: rest

/-- The scan output's blocks, one per `BSS` line, each paired with the
lowercased matched address; lines before the first `BSS` line belong to no
block. -/
def scanBlocks : List String → List (String × List String)
  | [] => []
  | l :: ls =>
      match scanBssMatch l with
      | some g => scanBlocksAux (lowerStr g) ls
      | none => scanBlocks ls

/-- The signal group a run of block lines leaves behind: the last
`SCAN_SIGNAL_RE` match wins over the accumulator. -/
def blockSignalFrom : Option String → List String → Option String
  | acc, [] => acc
  | acc, l :: ls =>
      match lineSignal? l with
      | some g => blockSignalFrom (some g) ls
      | none => blockSignalFrom acc ls

/-- The last signal group among a block's lines, if any. -/
def blockSignal (ls : List String) : Option String := blockSignalFrom none ls

/-- A block line on which the parser cannot raise: if it matches the signal
regex, the matched group converts to a float. -/
def lineParses (l : String) : Bool :=
  match lineSignal? l with
  | some g => (parseFloat g).isSome
  | none => true

/-- The signal/age update a single block line performs (`cur_bssid` set). -/
def blockStep (p : Option ℚ × Option ℕ) (l : String) :
    Except Unit (Option ℚ × Option ℕ) :=
  match lineSignal? l with
  | some g =>
      match parseFloat g with
      | some q => Except.ok (some q, p.2)
      | none => Except.error ()
  | none =>
      match lineAge? l with
      | some g => Except.ok (p.1, some (digitsToNat g.data))
      | none => Except.ok p

/-- Fold `blockStep` over a block's lines. -/
def block_lines_loop : Option ℚ × Option ℕ → List String → Except Unit (Option ℚ × Option ℕ)
  | p, [] => Except.ok p
  | p, l :: ls =>
      match blockStep p l with
      | Except.ok p2 => block_lines_loop p2 ls
      | Except.error e => Except.error e

/-- Commit one finished block (address `b`, folded signal/age) onto `seen`. -/
def commitCand (bm : List (String × String)) (seen : SeenMap) (b : String)
    (sig : Option ℚ) (age : Option ℕ) : SeenMap :=
  commit_current bm ⟨seen, some b, sig, age⟩

/-- Run the parser block by block. -/
def runBlocks (bm : List (String × String)) : SeenMap → List (String × List String) →
    Except Unit SeenMap
  | seen, [] => Except.ok seen
  | seen, (b, ls) :: rest =>
      match block_lines_loop (none, none) ls with
      | Except.ok p => runBlocks bm (commitCand bm seen b p.1 p.2) rest
      | Except.error e => Except.error e

/-- The parser's tail: run the line loop, then commit the pending block. -/
def runLines (bm : List (String × String)) (a : ScanAcc) (ls : List String) :
    Except Unit SeenMap :=
  match scan_lines_loop bm a ls with
  | Except.ok a2 => Except.ok (commit_current bm a2)
  | Except.error e => Except.error e

/-- The contribution of a block with address `b` and folded signal `sig` to
tower `ssid`, per the commit rule. -/
def candFor (bm : List (String × String)) (ssid : String) (b : String)
    (sig : Option ℚ) : Option ℚ :=
  match sig with
  | none => none
  | some q =>
      match pyGet bm b with
      | none => none
      | some s2 => if s2 = ssid ∧ ¬ ssid = "" then some q else none

/-- All committed signal candidates for `ssid` among `blocks`. -/
def candsOf (bm : List (String × String)) (ssid : String)
    (blocks : List (String × List String)) : List ℚ :=
  blocks.filterMap (fun p => candFor bm ssid p.1 ((blockSignal p.2).bind parseFloat))

/-- Running maximum over an optional accumulator. -/
def optMax : Option ℚ → ℚ → Option ℚ
  | none, q => some q
  | some p, q => some (max p q)

/-- Maximum of a list of rationals, `none` when empty. -/
def listMaxQ (l : List ℚ) : Option ℚ := l.foldl optMax none

/-- Spec-side candidate list: the parsed last-signal of every block whose
address the registry maps to `ssid`. -/
def scan_tower_signals (bm : List (String × String)) (ssid : String)
    (blocks : List (String × List String)) : List ℚ :=
  blocks.filterMap (fun p =>
    if pyGet bm p.1 = some ssid then (blockSignal p.2).bind parseFloat else none)

theorem scanBlocksAux_shape (ls : List String) : ∀ b : String,
    ∃ blk rest, scanBlocksAux b ls = (b, blk) :: rest := by
  induction ls with
  | nil => intro b; exact ⟨[], [], rfl⟩
  | cons l ls ih =>
      intro b
      cases hbss : scanBssMatch l with
      | some g =>
          exact ⟨[], scanBlocksAux (lowerStr g) ls, by simp only [scanBlocksAux, hbss]⟩
      | none =>
          obtain ⟨blk, rest, he⟩ := ih b
          exact ⟨l :: blk, rest, by simp only [scanBlocksAux, hbss, he]⟩

theorem blockSignalFrom_acc (ls : List String) : ∀ acc : Option String,
    blockSignalFrom acc ls =
      match blockSignalFrom none ls with
      | none => acc
      | some g => some g := by
  induction ls with
  | nil => intro acc; rfl
  | cons l ls ih =>
      intro acc
      cases hs : lineSignal? l with
      | some g =>
          have h1 : blockSignalFrom acc (l :: ls) = blockSignalFrom (some g) ls := by
            simp only [blockSignalFrom, hs]
          have h2 : blockSignalFrom none (l :: ls) = blockSignalFrom (some g) ls := by
            simp only [blockSignalFrom, hs]
          rw [h1, h2, ih (some g)]
          cases blockSignalFrom none ls <;> rfl
      | none =>
          have h1 : blockSignalFrom acc (l :: ls) = blockSignalFrom acc ls := by
            simp only [blockSignalFrom, hs]
          have h2 : blockSignalFrom none (l :: ls) = blockSignalFrom none ls := by
            simp only [blockSignalFrom, hs]
          rw [h1, h2, ih acc]

theorem block_loop_sig (ls : List String) : ∀ (sig : Option ℚ) (age : Option ℕ),
    (∀ l ∈ ls, lineParses l = true) →
    ∃ age2, block_lines_loop (sig, age) ls =
      Except.ok ((match blockSignalFrom none ls with
                  | none => sig
                  | some g => parseFloat g), age2) := by
  induction ls with
  | nil => intro sig age _; exact ⟨age, rfl⟩
  | cons l ls ih =>
      intro sig age hOK
      have hl : lineParses l = true := hOK l (List.mem_cons_self l ls)
      have htl : ∀ x ∈ ls, lineParses x = true :=
        fun x hx => hOK x (List.mem_cons_of_mem l hx)
      cases hs : lineSignal? l with
      | some g =>
          have hps : (parseFloat g).isSome = true := by
            have hlp : lineParses l = (parseFloat g).isSome := by
              simp only [lineParses, hs]
            rw [← hlp]; exact hl
          obtain ⟨q, hq⟩ := Option.isSome_iff_exists.mp hps
          have hstep : blockStep (sig, age) l = Except.ok (some q, age) := by
            simp only [blockStep, hs, hq]
          have hloop : block_lines_loop (sig, age) (l :: ls) =
              block_lines_loop (some q, age) ls := by
            simp only [block_lines_loop, hstep]
          obtain ⟨age2, he⟩ := ih (some q) age htl
          refine ⟨age2, ?_⟩
          rw [hloop, he]
          have hbs : blockSignalFrom none (l :: ls) = blockSignalFrom (some g) ls := by
            simp only [blockSignalFrom, hs]
          rw [hbs, blockSignalFrom_acc ls (some g)]
          cases blockSignalFrom none ls with
          | none =>
              exact congrArg
                (fun o => (Except.ok (o, age2) : Except Unit (Option ℚ × Option ℕ))) hq.symm
          | some g2 => rfl
      | none =>
          cases ha : lineAge? l with
          | some g =>
              have hstep : blockStep (sig, age) l =
                  Except.ok (sig, some (digitsToNat g.data)) := by
                simp only [blockStep, hs, ha]
              have hloop : block_lines_loop (sig, age) (l :: ls) =
                  block_lines_loop (sig, some (digitsToNat g.data)) ls := by
                simp only [block_lines_loop, hstep]
              obtain ⟨age2, he⟩ := ih sig (some (digitsToNat g.data)) htl
              refine ⟨age2, ?_⟩
              rw [hloop, he]
              have hbs : blockSignalFrom none (l :: ls) = blockSignalFrom none ls := by
                simp only [blockSignalFrom, hs]
              rw [hbs]
          | none =>
              have hstep : blockStep (sig, age) l = Except.ok (sig, age) := by
                simp only [blockStep, hs, ha]
              have hloop : block_lines_loop (sig, age) (l :: ls) =
                  block_lines_loop (sig, age) ls := by
                simp only [block_lines_loop, hstep]
              obtain ⟨age2, he⟩ := ih sig age htl
              refine ⟨age2, ?_⟩
              rw [hloop, he]
              have hbs : blockSignalFrom none (l :: ls) = blockSignalFrom none ls := by
                simp only [blockSignalFrom, hs]
              rw [hbs]

theorem runLines_cons (bm : List (String × String)) (a : ScanAcc) (l : String)
    (ls : List String) :
    runLines bm a (l :: ls) =
      match scan_line_step bm a l with
      | Except.ok a2 => runLines bm a2 ls
      | Except.error e => Except.error e := by
  cases hst : scan_line_step bm a l with
  | ok a2 => simp only [runLines, scan_lines_loop, hst]
  | error e => simp only [runLines, scan_lines_loop, hst]

theorem scan_line_step_nonbss (bm : List (String × String)) (seen : SeenMap)
    (b : String) (sig : Option ℚ) (age : Option ℕ) (l : String)
    (hbss : scanBssMatch l = none) :
    scan_line_step bm ⟨seen, some b, sig, age⟩ l =
      match blockStep (sig, age) l with
      | Except.ok p => Except.ok ⟨seen, some b, p.1, p.2⟩
      | Except.error e => Except.error e := by
  cases hs : lineSignal? l with
  | some g =>
      cases hq : parseFloat g with
      | some q => simp only [scan_line_step, hbss, hs, hq, blockStep]
      | none => simp only [scan_line_step, hbss, hs, hq, blockStep]
  | none =>
      cases ha : lineAge? l with
      | some g => simp only [scan_line_step, hbss, hs, ha, blockStep]
      | none => simp only [scan_line_step, hbss, hs, ha, blockStep]

theorem runLines_open (bm : List (String × String)) (ls : List String) :
    ∀ (seen : SeenMap) (b : String) (sig : Option ℚ) (age : Option ℕ),
    runLines bm ⟨seen, some b, sig, age⟩ ls =
      match scanBlocksAux b ls with
      | [] => Except.ok seen
      | (b0, blk) :: rest =>
          match block_lines_loop (sig, age) blk with
          | Except.ok p => runBlocks bm (commitCand bm seen b0 p.1 p.2) rest
          | Except.error e => Except.error e := by
  induction ls with
  | nil => intro seen b sig age; rfl
  | cons l ls ih =>
      intro seen b sig age
      rw [runLines_cons]
      cases hbss : scanBssMatch l with
      | some g =>
          have hst : scan_line_step bm ⟨seen, some b, sig, age⟩ l =
              Except.ok ⟨commitCand bm seen b sig age, some (lowerStr g), none, none⟩ := by
            simp only [scan_line_step, hbss, commitCand]
          rw [hst]
          show runLines bm ⟨commitCand bm seen b sig age, some (lowerStr g), none, none⟩ ls = _
          rw [ih]
          have hsa : scanBlocksAux b (l :: ls) = (b, []) :: scanBlocksAux (lowerStr g) ls := by
            simp only [scanBlocksAux, hbss]
          rw [hsa]
          cases hs2 : scanBlocksAux (lowerStr g) ls with
          | nil => rfl
          | cons p0 rest =>
              obtain ⟨b0, blk⟩ := p0
              rfl
      | none =>
          obtain ⟨blk, rest, hsh⟩ := scanBlocksAux_shape ls b
          have hsa : scanBlocksAux b (l :: ls) = (b, l :: blk) :: rest := by
            simp only [scanBlocksAux, hbss, hsh]
          rw [scan_line_step_nonbss bm seen b sig age l hbss]
          cases hbs2 : blockStep (sig, age) l with
          | ok p =>
              obtain ⟨s2, a2⟩ := p
              show runLines bm ⟨seen, some b, s2, a2⟩ ls = _
              rw [ih, hsh, hsa]
              have hbl : block_lines_loop (sig, age) (l :: blk) =
                  block_lines_loop (s2, a2) blk := by
                simp only [block_lines_loop, hbs2]
              show (match block_lines_loop (s2, a2) blk with
                    | Except.ok p2 => runBlocks bm (commitCand bm seen b p2.1 p2.2) rest
                    | Except.error e => Except.error e) =
                  (match block_lines_loop (sig, age) (l :: blk) with
                    | Except.ok p2 => runBlocks bm (commitCand bm seen b p2.1 p2.2) rest
                    | Except.error e => Except.error e)
              rw [hbl]
          | error e =>
              rw [hsa]
              have hbl : block_lines_loop (sig, age) (l :: blk) = Except.error e := by
                simp only [block_lines_loop, hbs2]
              show (Except.error e : Except Unit SeenMap) =
                  (match block_lines_loop (sig, age) (l :: blk) with
                    | Except.ok p2 => runBlocks bm (commitCand bm seen b p2.1 p2.2) rest
                    | Except.error e2 => Except.error e2)
              rw [hbl]

theorem runLines_closed (bm : List (String × String)) (ls : List String) :
    ∀ (seen : SeenMap) (sig : Option ℚ) (age : Option ℕ),
    runLines bm ⟨seen, none, sig, age⟩ ls = runBlocks bm seen (scanBlocks ls) := by
  induction ls with
  | nil => intro seen sig age; rfl
  | cons l ls ih =>
      intro seen sig age
      rw [runLines_cons]
      cases hbss : scanBssMatch l with
      | some g =>
          have hst : scan_line_step bm ⟨seen, none, sig, age⟩ l =
              Except.ok ⟨seen, some (lowerStr g), none, none⟩ := by
            simp only [scan_line_step, hbss, commit_current]
          rw [hst]
          show runLines bm ⟨seen, some (lowerStr g), none, none⟩ ls = _
          rw [runLines_open bm ls seen (lowerStr g) none none]
          have hsb : scanBlocks (l :: ls) = scanBlocksAux (lowerStr g) ls := by
            simp only [scanBlocks, hbss]
          rw [hsb]
          cases hs2 : scanBlocksAux (lowerStr g) ls with
          | nil => rfl
          | cons p0 rest =>
              obtain ⟨b0, blk⟩ := p0
              rfl
      | none =>
          have hst : scan_line_step bm ⟨seen, none, sig, age⟩ l =
              Except.ok ⟨seen, none, sig, age⟩ := by
            simp only [scan_line_step, hbss]
          rw [hst]
          show runLines bm ⟨seen, none, sig, age⟩ ls = _
          rw [ih seen sig age]
          have hsb : scanBlocks (l :: ls) = scanBlocks ls := by
            simp only [scanBlocks, hbss]
          rw [hsb]

theorem parse_eq_runBlocks (text : String) (bm : List (String × String)) :
    parse_scan_seen_towers text bm = runBlocks bm [] (scanBlocks (pySplitlines text)) := by
  have h0 : parse_scan_seen_towers text bm =
      runLines bm ⟨[], none, none, none⟩ (pySplitlines text) := rfl
  rw [h0, runLines_closed]

theorem commitCand_sig (bm : List (String × String)) (seen : SeenMap) (b : String)
    (sig : Option ℚ) (age : Option ℕ) (ssid : String) :
    (pyGet (commitCand bm seen b sig age) ssid).map (fun e => e.signal_dbm) =
      match candFor bm ssid b sig with
      | none => (pyGet seen ssid).map (fun e => e.signal_dbm)
      | some q => optMax ((pyGet seen ssid).map (fun e => e.signal_dbm)) q := by
  cases sig with
  | none =>
      have hc : commitCand bm seen b none age = seen := by
        simp only [commitCand, commit_current]
      rw [hc]
      rfl
  | some q =>
      cases hg : pyGet bm b with
      | none =>
          have hc : commitCand bm seen b (some q) age = seen := by
            simp only [commitCand, commit_current, hg]
          have hcf : candFor bm ssid b (some q) = none := by
            simp only [candFor, hg]
          rw [hc, hcf]
      | some s2 =>
          have hc0 : commitCand bm seen b (some q) age =
              (if s2 = "" then seen
               else
                 match pyGet seen s2 with
                 | none => pyDictSet seen s2 ⟨s2, b, q, age, ObsSource.scan⟩
                 | some prev =>
                     if q > prev.signal_dbm then
                       pyDictSet seen s2 ⟨s2, b, q, age, ObsSource.scan⟩
                     else seen) := by
            simp only [commitCand, commit_current, hg]
          by_cases hse : s2 = ""
          · have hc : commitCand bm seen b (some q) age = seen := by
              rw [hc0, if_pos hse]
            have hcf : candFor bm ssid b (some q) = none := by
              simp only [candFor, hg]
              rw [if_neg]
              intro hand
              exact hand.2 (hand.1 ▸ hse)
            rw [hc, hcf]
          · by_cases hss : s2 = ssid
            · have hcf : candFor bm ssid b (some q) = some q := by
                simp only [candFor, hg]
                rw [if_pos ⟨hss, fun h => hse (hss.trans h)⟩]
              rw [hcf]
              subst hss
              cases hp : pyGet seen s2 with
              | none =>
                  have hc1 : commitCand bm seen b (some q) age =
                      pyDictSet seen s2 ⟨s2, b, q, age, ObsSource.scan⟩ := by
                    rw [hc0, if_neg hse, hp]
                  rw [hc1, pyGet_set_self]
                  rfl
              | some prev =>
                  by_cases hgt : q > prev.signal_dbm
                  · have hc1 : commitCand bm seen b (some q) age =
                        pyDictSet seen s2 ⟨s2, b, q, age, ObsSource.scan⟩ := by
                      rw [hc0, if_neg hse, hp]
                      show (if q > prev.signal_dbm then
                              pyDictSet seen s2 ⟨s2, b, q, age, ObsSource.scan⟩
                            else seen) = _
                      rw [if_pos hgt]
                    rw [hc1, pyGet_set_self]
                    show some q = some (max prev.signal_dbm q)
                    rw [max_eq_right (le_of_lt hgt)]
                  · have hc1 : commitCand bm seen b (some q) age = seen := by
                      rw [hc0, if_neg hse, hp]
                      show (if q > prev.signal_dbm then
                              pyDictSet seen s2 ⟨s2, b, q, age, ObsSource.scan⟩
                            else seen) = _
                      rw [if_neg hgt]
                    rw [hc1, hp]
                    show some prev.signal_dbm = some (max prev.signal_dbm q)
                    rw [max_eq_left (not_lt.mp hgt)]
            · have hcf : candFor bm ssid b (some q) = none := by
                simp only [candFor, hg]
                rw [if_neg]
                intro hand
                exact hss hand.1
              rw [hcf]
              have hne : ssid ≠ s2 := fun h => hss h.symm
              cases hp : pyGet seen s2 with
              | none =>
                  have hc1 : commitCand bm seen b (some q) age =
                      pyDictSet seen s2 ⟨s2, b, q, age, ObsSource.scan⟩ := by
                    rw [hc0, if_neg hse, hp]
                  rw [hc1, pyGet_set_ne seen s2 ssid _ hne]
              | some prev =>
                  by_cases hgt : q > prev.signal_dbm
                  · have hc1 : commitCand bm seen b (some q) age =
                        pyDictSet seen s2 ⟨s2, b, q, age, ObsSource.scan⟩ := by
                      rw [hc0, if_neg hse, hp]
                      show (if q > prev.signal_dbm then
                              pyDictSet seen s2 ⟨s2, b, q, age, ObsSource.scan⟩
                            else seen) = _
                      rw [if_pos hgt]
                    rw [hc1, pyGet_set_ne seen s2 ssid _ hne]
                  · have hc1 : commitCand bm seen b (some q) age = seen := by
                      rw [hc0, if_neg hse, hp]
                      show (if q > prev.signal_dbm then
                              pyDictSet seen s2 ⟨s2, b, q, age, ObsSource.scan⟩
                            else seen) = _
                      rw [if_neg hgt]
                    rw [hc1]

theorem runBlocks_sig (bm : List (String × String)) (blocks : List (String × List String)) :
    ∀ seen : SeenMap,
    (∀ p ∈ blocks, ∀ l ∈ p.2, lineParses l = true) →
    ∃ m, runBlocks bm seen blocks = Except.ok m ∧
      ∀ ssid, (pyGet m ssid).map (fun e => e.signal_dbm) =
        (candsOf bm ssid blocks).foldl optMax
          ((pyGet seen ssid).map (fun e => e.signal_dbm)) := by
  induction blocks with
  | nil =>
      intro seen _
      exact ⟨seen, rfl, fun ssid => rfl⟩
  | cons p blocks ih =>
      obtain ⟨b, ls⟩ := p
      intro seen hOK
      have hOKb : ∀ l ∈ ls, lineParses l = true :=
        fun l hl => hOK (b, ls) (List.mem_cons_self _ _) l hl
      have hOKt : ∀ p ∈ blocks, ∀ l ∈ p.2, lineParses l = true :=
        fun p hp l hl => hOK p (List.mem_cons_of_mem _ hp) l hl
      obtain ⟨age2, hbl⟩ := block_loop_sig ls none none hOKb
      have hsig : (match blockSignalFrom none ls with
                   | none => (none : Option ℚ)
                   | some g => parseFloat g) = (blockSignal ls).bind parseFloat := by
        unfold blockSignal
        cases blockSignalFrom none ls <;> rfl
      have hrb : runBlocks bm seen ((b, ls) :: blocks) =
          runBlocks bm
            (commitCand bm seen b ((blockSignal ls).bind parseFloat) age2) blocks := by
        simp only [runBlocks, hbl, hsig]
      obtain ⟨m, hm, hval⟩ :=
        ih (commitCand bm seen b ((blockSignal ls).bind parseFloat) age2) hOKt
      refine ⟨m, by rw [hrb, hm], ?_⟩
      intro ssid
      rw [hval ssid, commitCand_sig]
      have hco : candsOf bm ssid ((b, ls) :: blocks) =
          match candFor bm ssid b ((blockSignal ls).bind parseFloat) with
          | none => candsOf bm ssid blocks
          | some q => q :: candsOf bm ssid blocks := by
        simp only [candsOf, List.filterMap_cons]
        cases candFor bm ssid b ((blockSignal ls).bind parseFloat) <;> rfl
      rw [hco]
      cases candFor bm ssid b ((blockSignal ls).bind parseFloat) with
      | none => rfl
      | some q => rfl

theorem candFor_eq_ite (bm : List (String × String)) (hbm : ∀ p ∈ bm, p.2 ≠ "")
    (ssid b : String) (s : Option ℚ) :
    candFor bm ssid b s = (if pyGet bm b = some ssid then s else none) := by
  cases s with
  | none =>
      show (none : Option ℚ) = if pyGet bm b = some ssid then none else none
      exact (ite_self none).symm
  | some q =>
      cases hg : pyGet bm b with
      | none =>
          have h1 : candFor bm ssid b (some q) = none := by
            simp only [candFor, hg]
          rw [h1, if_neg]
          exact fun h => Option.noConfusion h
      | some s2 =>
          have h1 : candFor bm ssid b (some q) =
              (if s2 = ssid ∧ ¬ ssid = "" then some q else none) := by
            simp only [candFor, hg]
          rw [h1]
          by_cases hss : s2 = ssid
          · obtain ⟨pp, hpmem, hp1, hp2⟩ := pyGet_mem bm b s2 hg
            have hne2 : s2 ≠ "" := hp2 ▸ hbm pp hpmem
            have hne : ¬ ssid = "" := fun h => hne2 (hss.trans h)
            rw [if_pos ⟨hss, hne⟩, if_pos (by rw [hss])]
          · rw [if_neg (fun hand => hss hand.1),
              if_neg (fun h => hss (Option.some.inj h))]

theorem candsOf_eq (bm : List (String × String)) (hbm : ∀ p ∈ bm, p.2 ≠ "")
    (ssid : String) (blocks : List (String × List String)) :
    candsOf bm ssid blocks = scan_tower_signals bm ssid blocks := by
  induction blocks with
  | nil => rfl
  | cons p blocks ih =>
      have hcl : candsOf bm ssid (p :: blocks) =
          match candFor bm ssid p.1 ((blockSignal p.2).bind parseFloat) with
          | none => candsOf bm ssid blocks
          | some q => q :: candsOf bm ssid blocks := by
        simp only [candsOf, List.filterMap_cons]
        cases candFor bm ssid p.1 ((blockSignal p.2).bind parseFloat) <;> rfl
      have hsl : scan_tower_signals bm ssid (p :: blocks) =
          match (if pyGet bm p.1 = some ssid then (blockSignal p.2).bind parseFloat
                 else none) with
          | none => scan_tower_signals bm ssid blocks
          | some q => q :: scan_tower_signals bm ssid blocks := by
        simp only [scan_tower_signals, List.filterMap_cons]
        cases (if pyGet bm p.1 = some ssid then (blockSignal p.2).bind parseFloat
               else none) <;> rfl
      rw [hcl, hsl, candFor_eq_ite bm hbm ssid p.1 ((blockSignal p.2).bind parseFloat), ih]

/-- C4 (amended): on scan texts where every signal line of every block carries
a float-convertible group (otherwise the parser raises, see the
counterexample) and registries whose identities are non-empty, the parser
succeeds and maps each identity to the maximum of the parsed last-signals of
the blocks whose address the registry maps to it; an identity with no such
block — in particular any unregistered address's block, or a block with an
address but no signal line — contributes no entry. -/
theorem c4_scan_parser_amended (text : String) (bm : List (String × String))
    (hbm : ∀ p ∈ bm, p.2 ≠ "")
    (hOK : ∀ p ∈ scanBlocks (pySplitlines text), ∀ l ∈ p.2, lineParses l = true) :
    ∃ m, parse_scan_seen_towers text bm = Except.ok m ∧
      ∀ ssid, (pyGet m ssid).map (fun e => e.signal_dbm) =
        listMaxQ (scan_tower_signals bm ssid (scanBlocks (pySplitlines text))) := by
  obtain ⟨m, hm, hval⟩ := runBlocks_sig bm (scanBlocks (pySplitlines text)) [] hOK
  refine ⟨m, ?_, ?_⟩
  · rw [parse_eq_runBlocks, hm]
  · intro ssid
    rw [hval ssid, candsOf_eq bm hbm ssid]
    rfl

/-- C4 counterexample: a block whose signal line matches the signal regex
with the group "-" makes the parser raise `ValueError` (modelled
`Except.error ()`) instead of producing an observation map — the claim's
"for every scan text" does not hold. -/
theorem c4_scan_parser_counterexample :
    parse_scan_seen_towers "BSS aa:bb:cc:dd:ee:ff(on wlan0)\nsignal: -dBm"
      [("aa:bb:cc:dd:ee:ff", "TowerA")] = Except.error () := rfl

/-- Concrete two-block scan text for the C4 witness. -/
def scanTxtA : String :=
  "BSS aa:aa:aa:aa:aa:aa(on wlan0)\n\tsignal: -71.0 dBm\n\tlast seen: 100 ms ago\nBSS bb:bb:bb:bb:bb:bb(on wlan0)\n\tsignal: -60 dBm"

theorem c4_scan_parser_amended_witness :
    ∃ m, parse_scan_seen_towers scanTxtA bmA = Except.ok m ∧
      ∀ ssid, (pyGet m ssid).map (fun e => e.signal_dbm) =
        listMaxQ (scan_tower_signals bmA ssid (scanBlocks (pySplitlines scanTxtA))) :=
  c4_scan_parser_amended scanTxtA bmA (by decide) (by decide)
